import Mathlib

/-!
# BlockDX xbridge RPC layer (`src/xbridge/rpcxbridge.cpp`)

A shallow embedding of the RPC entry points of the xbridge module together
with the amount conversions they rely on, followed by the properties that
were checked against it.

* `double` is modelled exactly: a value is a sign, a significand and a binary
  exponent, and every arithmetic operation rounds the exact result to the
  nearest binary64 value, ties to even.
* `uint64_t` is a natural number below `2 ^ 64`.
* `std::string` is a `String` whose `size()` is its number of bytes.
* `std::map` is the list of its entries in iteration order (ascending keys).
-/

namespace XBridge

/-! ## binary64 arithmetic -/

/-- The values of a C++ `double` (IEEE-754 binary64). `finite neg m e` is the
number `(-1)^neg * m * 2^e`; a value is well formed when `m < 2^53` and
`-1074 ≤ e ≤ 971`. -/
inductive F64 where
  | finite (neg : Bool) (m : Nat) (e : Int)
  | inf (neg : Bool)
  | nan
deriving DecidableEq, Repr

namespace F64

/-- Well-formedness of a binary64 value: 53 bits of significand, exponent
between that of the smallest subnormal and that of the largest normal. -/
def valid : F64 → Bool
  | finite _ m e => decide (m < 2 ^ 53) && decide (-1074 ≤ e) && decide (e ≤ 971)
  | inf _ => true
  | nan => true

/-- The rational number a finite value stands for (`0` for infinities and
NaN, which stand for no number). -/
def toRat : F64 → ℚ
  | finite neg m e => (if neg then -1 else 1) * (m : ℚ) * (2 : ℚ) ^ e
  | inf _ => 0
  | nan => 0

/-- Binary logarithm by repeated halving; `fuel` bounds the number of
halvings. -/
def log2Aux : Nat → Nat → Nat
  | 0, _ => 0
  | fuel + 1, n => if n < 2 then 0 else log2Aux fuel (n / 2) + 1

/-- Integer part of the binary logarithm of a positive natural number. -/
def log2 (n : Nat) : Nat := log2Aux n n

/-- Integer part of the binary logarithm of the positive rational `n / d`. -/
def ilog2 (n d : Nat) : Int :=
  let k : Int := (log2 n : Int) - (log2 d : Int)
  if d * 2 ^ k.toNat ≤ n * 2 ^ (-k).toNat then k else k - 1

/-- The integer nearest to `N / D`, a tie going to the even neighbour. -/
def roundHalfEven (N D : Nat) : Nat :=
  let q := N / D
  let r := N % D
  if 2 * r < D then q
  else if D < 2 * r then q + 1
  else if q % 2 = 0 then q
  else q + 1

/-- Rounding of the exact magnitude `n / d` (with sign `neg`) to binary64 in
the default rounding mode, round to nearest, ties to even. The exponent of
the result is that of the binade of `n / d`, bounded below by the subnormal
exponent; a significand that rounds up to `2^53` moves to the next binade,
and a result beyond the largest finite value becomes an infinity. -/
def round (neg : Bool) (n d : Nat) : F64 :=
  if n = 0 then finite neg 0 0
  else
    let e : Int := max (ilog2 n d) (-1022) - 52
    let m := roundHalfEven (n * 2 ^ (-e).toNat) (d * 2 ^ e.toNat)
    let m1 := if m = 2 ^ 53 then 2 ^ 52 else m
    let e1 := if m = 2 ^ 53 then e + 1 else e
    if 971 < e1 then inf neg else finite neg m1 e1

/-- Conversion of an unsigned integer to `double`
(`static_cast<double>(n)`, or the implicit conversion of an integer operand). -/
def ofNat (n : Nat) : F64 := round false n 1

/-- Conversion of a signed integer to `double`. -/
def ofInt (i : Int) : F64 := round (decide (i < 0)) i.natAbs 1

/-- The `double` product `a * b`. -/
def mul : F64 → F64 → F64
  | nan, _ => nan
  | _, nan => nan
  | inf s, inf t => inf (xor s t)
  | inf s, finite t m _ => if m = 0 then nan else inf (xor s t)
  | finite s m _, inf t => if m = 0 then nan else inf (xor s t)
  | finite s m1 e1, finite t m2 e2 =>
      round (xor s t) (m1 * m2 * 2 ^ (e1 + e2).toNat) (2 ^ (-(e1 + e2)).toNat)

/-- The `double` sum `a + b`. -/
def add : F64 → F64 → F64
  | nan, _ => nan
  | _, nan => nan
  | inf s, inf t => if s = t then inf s else nan
  | inf s, finite _ _ _ => inf s
  | finite _ _ _, inf t => inf t
  | finite s m1 e1, finite t m2 e2 =>
      let e : Int := min e1 e2
      let a : Int := (if s then -1 else 1) * ((m1 * 2 ^ (e1 - e).toNat : Nat) : Int)
      let b : Int := (if t then -1 else 1) * ((m2 * 2 ^ (e2 - e).toNat : Nat) : Int)
      let c : Int := a + b
      if c = 0 then finite (s && t) 0 0
      else round (decide (c < 0)) (c.natAbs * 2 ^ e.toNat) (2 ^ (-e).toNat)

/-- The `double` quotient `a / b`. Dividing by zero raises nothing: the
quotient is an infinity, or NaN for `0 / 0`. -/
def div : F64 → F64 → F64
  | nan, _ => nan
  | _, nan => nan
  | inf _, inf _ => nan
  | inf s, finite t _ _ => inf (xor s t)
  | finite s _ _, inf t => finite (xor s t) 0 0
  | finite s m1 e1, finite t m2 e2 =>
      if m2 = 0 then (if m1 = 0 then nan else inf (xor s t))
      else round (xor s t) (m1 * 2 ^ (e1 - e2).toNat) (m2 * 2 ^ (e2 - e1).toNat)

/-- Conversion `static_cast<uint64_t>(x)`: the fractional part is discarded
(truncation toward zero). The conversion is defined only when the truncated
value is representable in 64 unsigned bits; `none` marks the inputs on which
the C++ conversion has no defined result. -/
def toUInt64 : F64 → Option Nat
  | finite neg m e =>
      let t := m * 2 ^ e.toNat / 2 ^ (-e).toNat
      if t = 0 then some 0
      else if neg then none
      else if t < 2 ^ 64 then some t
      else none
  | inf _ => none
  | nan => none

/-- The literal `0.5`. -/
def half : F64 := finite false 1 (-1)

end F64

/-! ## JSON values and exceptions -/

/-- A JSON value of the `json_spirit` library: the parameters and the result
of every RPC entry point. An `Object` is a sequence of name/value pairs, an
`Array` a sequence of values; numbers are integers or `double`s. -/
inductive Value where
  | null
  | str (s : String)
  | bool (b : Bool)
  | int (i : Int)
  | real (d : F64)
  | obj (fields : List (String × Value))
  | array (items : List Value)

/-- What an RPC entry point can throw. `runtime_error what` is a
`std::runtime_error` raised by the entry point itself; `value_type_error` is
the error the JSON accessors `get_str` / `get_real` raise on a value of
another type (its text is composed by the JSON library). -/
inductive Exception where
  | runtime_error (what : String)
  | value_type_error
deriving DecidableEq, Repr

/-- Accessor `Value::get_str()`. -/
def Value.get_str : Value → Except Exception String
  | .str s => .ok s
  | _ => .error .value_type_error

/-- Accessor `Value::get_real()`: a real number, or an integer converted to
`double`. -/
def Value.get_real : Value → Except Exception F64
  | .real d => .ok d
  | .int i => .ok (F64.ofInt i)
  | _ => .error .value_type_error

/-- Member `std::string::size()`: the number of bytes of the string. -/
def size (s : String) : Nat := s.utf8ByteSize

/-- Member `push_back` of `Array` and `Object`. -/
def push_back {α : Type} (xs : List α) (x : α) : List α := xs ++ [x]

/-- Constructor `Pair(name, value)` of an object member. -/
def Pair (name : String) (value : Value) : String × Value := (name, value)

/-! ## Transaction descriptors and the registry -/

/-- A 256-bit identifier. -/
abbrev uint256 := Fin (2 ^ 256)

/-- The fields of `XBridgeTransactionDescr` the RPC layer reads. The two
amounts are `uint64_t` base units; `state` is the enumerator of
`XBridgeTransactionDescr::State`, `created` the creation time. -/
structure XBridgeTransactionDescr where
  id : uint256
  fromCurrency : String
  from_ : String
  fromAmount : Nat
  toCurrency : String
  to_ : String
  toAmount : Nat
  state : Nat
  created : Nat
deriving DecidableEq, Repr

/-- A `std::map<uint256, XBridgeTransactionDescrPtr>`: its entries in
iteration order, which is the strictly ascending order of the keys. -/
structure TxMap where
  entries : List (uint256 × XBridgeTransactionDescr)
  sorted : entries.Pairwise (fun a b => a.1 < b.1)

/-- The three static transaction maps of `XBridgeApp`. -/
structure Registry where
  m_pendingTransactions : TxMap
  m_transactions : TxMap
  m_historicTransactions : TxMap

/-- What the RPC file takes from headers that are not part of the sources at
hand: the integer unit scale `XBridgeTransactionDescr::COIN`, the hexadecimal
rendering and parsing of `uint256`, `XBridgeTransactionDescr::strState()`
and `to_simple_string` of the time library. -/
structure Externals where
  COIN : Nat
  COIN_pos : 0 < COIN
  GetHex : uint256 → String
  SetHex : String → uint256
  strState : XBridgeTransactionDescr → String
  to_simple_string : Nat → String

/-- The result codes `xbridge::Error`; the RPC layer only tells `NO_ERROR`
from the rest. -/
inductive Error where
  | NO_ERROR
  | OTHER (code : Nat)
deriving DecidableEq, Repr

/-- The reasons `TxCancelReason` of a cancellation; the RPC layer passes
`crRpcRequest`. -/
inductive TxCancelReason where
  | crRpcRequest
  | crOther (code : Nat)
deriving DecidableEq, Repr

/-- The three methods of `XBridgeApp` the RPC layer calls, over an application
state `σ` they may read and change. A `uint256 &` argument is passed in and
handed back with the result code. -/
structure XBridgeApp (σ : Type) where
  sendXBridgeTransaction :
    String → String → Nat → String → String → Nat → uint256 → σ → Error × uint256 × σ
  acceptXBridgeTransaction :
    uint256 → String → String → uint256 → σ → Error × uint256 × σ
  cancelXBridgeTransaction : uint256 → TxCancelReason → σ → Error × σ

/-! ## Amount conversions -/

/-- `uint64_t xBridgeAmountFromReal(double val)`:
`static_cast<uint64_t>(val * XBridgeTransactionDescr::COIN + 0.5)`.
`COIN` is the integer constant of `XBridgeTransactionDescr`; as an operand of
the `double` product it is first converted to `double`. -/
def xBridgeAmountFromReal (COIN : Nat) (val : F64) : Option Nat :=
  F64.toUInt64 (F64.add (F64.mul val (F64.ofNat COIN)) F64.half)

/-- `Value xBridgeValueFromAmount(uint64_t amount)`:
`static_cast<double>(amount / XBridgeTransactionDescr::COIN)`. Both operands of
the division are integers, so the quotient is the integer quotient; it is
converted to `double` afterwards. -/
def xBridgeValueFromAmount (COIN : Nat) (amount : Nat) : Value :=
  .real (F64.ofNat (amount / COIN))

/-! ## RPC entry points -/

/-- The object the listing entry points build for one descriptor. -/
def txObject (ext : Externals) (tr : XBridgeTransactionDescr) : Value :=
  let jtr : List (String × Value) := []
  let jtr := push_back jtr (Pair "id" (.str (ext.GetHex tr.id)))
  let jtr := push_back jtr (Pair "from" (.str tr.fromCurrency))
  let jtr := push_back jtr (Pair "from address" (.str tr.from_))
  let jtr := push_back jtr (Pair "fromAmount" (xBridgeValueFromAmount ext.COIN tr.fromAmount))
  let jtr := push_back jtr (Pair "to" (.str tr.toCurrency))
  let jtr := push_back jtr (Pair "to address" (.str tr.to_))
  let jtr := push_back jtr (Pair "toAmount" (xBridgeValueFromAmount ext.COIN tr.toAmount))
  let jtr := push_back jtr (Pair "state" (.str (ext.strState tr)))
  .obj jtr

/-- `Value dxGetTransactionList(const Array & params, bool fHelp)`. -/
def dxGetTransactionList (ext : Externals) (reg : Registry) (params : List Value)
    (fHelp : Bool) : Except Exception Value :=
  if fHelp || decide (params.length > 0) then
    .error (.runtime_error "dxGetTransactionList\nList transactions.")
  else
    let arr : List Value := []
    -- pending tx
    let arr := reg.m_pendingTransactions.entries.foldl
      (fun arr trEntry => push_back arr (txObject ext trEntry.2)) arr
    -- active tx
    let arr := reg.m_transactions.entries.foldl
      (fun arr trEntry => push_back arr (txObject ext trEntry.2)) arr
    .ok (.array arr)

/-- `Value dxGetTransactionsHistoryList(const Array & params, bool fHelp)`. -/
def dxGetTransactionsHistoryList (ext : Externals) (reg : Registry) (params : List Value)
    (fHelp : Bool) : Except Exception Value :=
  if fHelp || decide (params.length > 0) then
    .error (.runtime_error "dxGetTransactionsHistoryList\nHistoric list transactions.")
  else
    let arr : List Value := []
    let trlist := reg.m_historicTransactions.entries
    if trlist.isEmpty then .ok (.array arr)
    else
      let arr := trlist.foldl
        (fun arr trEntry =>
          let buy : List (String × Value) := []
          let tr := trEntry.2
          let fromAmount : F64 := F64.ofNat tr.fromAmount
          let toAmount : F64 := F64.ofNat tr.toAmount
          let price : F64 := F64.div fromAmount toAmount
          let buyTime : String := ext.to_simple_string tr.created
          let buy := push_back buy (Pair "time" (.str buyTime))
          let buy := push_back buy (Pair "traid_id" (.str (ext.GetHex tr.id)))
          let buy := push_back buy (Pair "price" (.real price))
          let buy := push_back buy (Pair "size" (.int tr.toAmount))
          let buy := push_back buy (Pair "side" (.str "buy"))
          push_back arr (.obj buy)) arr
      .ok (.array arr)

/-- One of the three loops of `dxGetTransactionInfo`: the descriptors whose
hexadecimal id is not the requested one are skipped. -/
def infoLoop (ext : Externals) (id : String) (trlist : List (uint256 × XBridgeTransactionDescr))
    (arr : List Value) : List Value :=
  trlist.foldl
    (fun arr trEntry =>
      let tr := trEntry.2
      if id != ext.GetHex tr.id then arr
      else push_back arr (txObject ext tr)) arr

/-- `Value dxGetTransactionInfo(const Array & params, bool fHelp)`. -/
def dxGetTransactionInfo (ext : Externals) (reg : Registry) (params : List Value)
    (fHelp : Bool) : Except Exception Value :=
  if fHelp || decide (params.length ≠ 1) then
    .error (.runtime_error "dxGetTransactionInfo (id)\nTransaction info.")
  else
    match params with
    | [p0] =>
      match p0.get_str with
      | .error e => .error e
      | .ok id =>
        let arr : List Value := []
        -- pending tx
        let arr := infoLoop ext id reg.m_pendingTransactions.entries arr
        -- active tx
        let arr := infoLoop ext id reg.m_transactions.entries arr
        -- historic tx
        let arr := infoLoop ext id reg.m_historicTransactions.entries arr
        .ok (.array arr)
    | _ => .error (.runtime_error "dxGetTransactionInfo (id)\nTransaction info.")

/-- The address test of `dxCreateTransaction`:
`(from.size() < 32 && from.size() > 36) || (to.size() < 32 && to.size() > 36)`. -/
def createAddressCheck (from_ to_ : String) : Bool :=
  (decide (size from_ < 32) && decide (size from_ > 36)) ||
    (decide (size to_ < 32) && decide (size to_ > 36))

/-- The address test of `dxAcceptTransaction`:
`(from.size() != 33 && from.size() != 34) || (to.size() != 33 && to.size() != 34)`. -/
def acceptAddressCheck (from_ to_ : String) : Bool :=
  (decide (size from_ ≠ 33) && decide (size from_ ≠ 34)) ||
    (decide (size to_ ≠ 33) && decide (size to_ ≠ 34))

/-- The usage text of `dxCreateTransaction`. -/
def createHelp : String :=
  "dxCreateTransaction (address from) (currency from) (amount from) (address to) (currency to) (amount to)\nCreate xbridge transaction."

/-- The usage text of `dxAcceptTransaction`. -/
def acceptHelp : String :=
  "dxAcceptTransaction (id) (address from) (address to)\nAccept xbridge transaction."

/-- The usage text of `dxCancelTransaction`. -/
def cancelHelp : String :=
  "dxCancelTransaction (id)\nCancel xbridge transaction."

/-- The six parameters of a create request, read in the order of the source. -/
def createParams (p0 p1 p2 p3 p4 p5 : Value) :
    Except Exception (String × String × F64 × String × String × F64) := do
  let from_ ← p0.get_str
  let fromCurrency ← p1.get_str
  let fromAmount ← p2.get_real
  let to_ ← p3.get_str
  let toCurrency ← p4.get_str
  let toAmount ← p5.get_real
  pure (from_, fromCurrency, fromAmount, to_, toCurrency, toAmount)

/-- `Value dxCreateTransaction(const Array & params, bool fHelp)`, run in the
application state `s`. The result is `none` when one of the two amounts has
no defined conversion to `uint64_t`. -/
def dxCreateTransaction {σ : Type} (ext : Externals) (app : XBridgeApp σ)
    (params : List Value) (fHelp : Bool) (s : σ) : Option (Except Exception Value × σ) :=
  if fHelp || decide (params.length ≠ 6) then
    some (.error (.runtime_error createHelp), s)
  else
    match params with
    | [p0, p1, p2, p3, p4, p5] =>
      match createParams p0 p1 p2 p3 p4 p5 with
      | .error e => some (.error e, s)
      | .ok (from_, fromCurrency, fromAmount, to_, toCurrency, toAmount) =>
        if createAddressCheck from_ to_ then
          some (.error (.runtime_error "incorrect address"), s)
        else
          match xBridgeAmountFromReal ext.COIN fromAmount,
                xBridgeAmountFromReal ext.COIN toAmount with
          | some a, some b =>
            let id : uint256 := 0
            let (res, id, s) := app.sendXBridgeTransaction from_ fromCurrency a to_ toCurrency b id s
            if res = Error.NO_ERROR then
              let obj : List (String × Value) := []
              let obj := push_back obj (Pair "from" (.str from_))
              let obj := push_back obj (Pair "from currency" (.str fromCurrency))
              let obj := push_back obj (Pair "from amount" (.real fromAmount))
              let obj := push_back obj (Pair "to" (.str to_))
              let obj := push_back obj (Pair "to currency" (.str toCurrency))
              let obj := push_back obj (Pair "to amount" (.real toAmount))
              some (.ok (.obj obj), s)
            else
              let obj : List (String × Value) := []
              let obj := push_back obj (Pair "id" (.str (ext.GetHex id)))
              some (.ok (.obj obj), s)
          | _, _ => none
    | _ => some (.error (.runtime_error createHelp), s)

/-- The three parameters of an accept request, read in the order of the
source. -/
def acceptParams (ext : Externals) (p0 p1 p2 : Value) :
    Except Exception (uint256 × String × String) := do
  let id ← p0.get_str
  let from_ ← p1.get_str
  let to_ ← p2.get_str
  pure (ext.SetHex id, from_, to_)

/-- `Value dxAcceptTransaction(const Array & params, bool fHelp)`, run in the
application state `s`. -/
def dxAcceptTransaction {σ : Type} (ext : Externals) (app : XBridgeApp σ)
    (params : List Value) (fHelp : Bool) (s : σ) : Except Exception Value × σ :=
  if fHelp || decide (params.length ≠ 3) then
    (.error (.runtime_error acceptHelp), s)
  else
    match params with
    | [p0, p1, p2] =>
      match acceptParams ext p0 p1 p2 with
      | .error e => (.error e, s)
      | .ok (id, from_, to_) =>
        if acceptAddressCheck from_ to_ then
          (.error (.runtime_error "incorrect address"), s)
        else
          let idResult : uint256 := 0
          let (error, idResult, s) := app.acceptXBridgeTransaction id from_ to_ idResult s
          if error = Error.NO_ERROR then
            let obj : List (String × Value) := []
            let obj := push_back obj (Pair "id" (.str (ext.GetHex id)))
            let obj := push_back obj (Pair "from" (.str from_))
            let obj := push_back obj (Pair "to" (.str to_))
            (.ok (.obj obj), s)
          else
            let obj : List (String × Value) := []
            let obj := push_back obj (Pair "id" (.str (ext.GetHex idResult)))
            (.ok (.obj obj), s)
    | _ => (.error (.runtime_error acceptHelp), s)

/-- `Value dxCancelTransaction(const Array & params, bool fHelp)`, run in the
application state `s`. -/
def dxCancelTransaction {σ : Type} (ext : Externals) (app : XBridgeApp σ)
    (params : List Value) (fHelp : Bool) (s : σ) : Except Exception Value × σ :=
  if fHelp || decide (params.length ≠ 1) then
    (.error (.runtime_error cancelHelp), s)
  else
    match params with
    | [p0] =>
      match p0.get_str with
      | .error e => (.error e, s)
      | .ok str =>
        let id : uint256 := ext.SetHex str
        let (res, s) := app.cancelXBridgeTransaction id TxCancelReason.crRpcRequest s
        if res = Error.NO_ERROR then
          let obj : List (String × Value) := []
          let obj := push_back obj (Pair "id" (.str (ext.GetHex id)))
          (.ok (.obj obj), s)
        else
          let obj : List (String × Value) := []
          let obj := push_back obj (Pair "id" (.str (ext.GetHex id)))
          (.ok (.obj obj), s)
    | _ => (.error (.runtime_error cancelHelp), s)

/-- Two descriptors that differ at most in the remainders of their amounts by
the unit scale: same id, currencies, addresses and state text, and the same
integer quotients `fromAmount / COIN` and `toAmount / COIN`. -/
def sameReport (ext : Externals) (tr1 tr2 : XBridgeTransactionDescr) : Prop :=
  tr1.id = tr2.id ∧ tr1.fromCurrency = tr2.fromCurrency ∧ tr1.from_ = tr2.from_ ∧
  tr1.toCurrency = tr2.toCurrency ∧ tr1.to_ = tr2.to_ ∧ ext.strState tr1 = ext.strState tr2 ∧
  tr1.fromAmount / ext.COIN = tr2.fromAmount / ext.COIN ∧
  tr1.toAmount / ext.COIN = tr2.toAmount / ext.COIN

/-! ## Sample instances

Concrete externals, applications and registries on which the statements
below are instantiated. -/

/-- A record of one call into `XBridgeApp`. -/
inductive Call where
  | send (from_ fromCurrency : String) (fromAmount : Nat) (to_ toCurrency : String)
      (toAmount : Nat) (id : uint256)
  | accept (id : uint256) (from_ to_ : String) (idResult : uint256)
  | cancel (id : uint256) (reason : TxCancelReason)
deriving DecidableEq, Repr

/-- An application whose state is the log of the calls it received; it
answers every call with the result code `res` and, where an identifier is
handed back, with `newId`. -/
def recorder (res : Error) (newId : uint256) : XBridgeApp (List Call) where
  sendXBridgeTransaction := fun from_ fromCurrency a to_ toCurrency b id s =>
    (res, newId, s ++ [Call.send from_ fromCurrency a to_ toCurrency b id])
  acceptXBridgeTransaction := fun id from_ to_ idResult s =>
    (res, newId, s ++ [Call.accept id from_ to_ idResult])
  cancelXBridgeTransaction := fun id reason s => (res, s ++ [Call.cancel id reason])

/-- The hexadecimal digit of a number below sixteen. -/
def hexDigit (n : Nat) : Char := ("0123456789abcdef".data).getD n '0'

/-- The value of a hexadecimal digit, `none` for any other character. -/
def hexValue (c : Char) : Option Nat :=
  (("0123456789abcdef".data).indexOf? c.toLower).map (fun i => i)

/-- A rendering of a 256-bit identifier as 64 hexadecimal digits, the most
significant first. -/
def sampleGetHex (x : uint256) : String :=
  String.mk ((List.range 64).map (fun k => hexDigit (x.val / 16 ^ (63 - k) % 16)))

/-- A reading of the leading hexadecimal digits of a string as a 256-bit
identifier. -/
def sampleSetHex (str : String) : uint256 :=
  Fin.ofNat ((str.data.takeWhile (fun c => (hexValue c).isSome)).foldl
    (fun acc c => acc * 16 + (hexValue c).getD 0) 0)

/-- Sample externals: a unit scale of `10^8`. -/
def sampleExt : Externals where
  COIN := 10 ^ 8
  COIN_pos := by decide
  GetHex := sampleGetHex
  SetHex := sampleSetHex
  strState := fun tr => if tr.state = 0 then "New" else "Other"
  to_simple_string := fun t => String.mk (List.replicate t '|')

/-- The `double` 1.5. -/
def onePointFive : F64 := F64.finite false 3 (-1)

/-- The `double` nearest to the decimal 0.1, which is `3602879701896397 / 2^55`. -/
def oneTenth : F64 := F64.finite false 3602879701896397 (-55)

/-- The `double` 20.0. -/
def twenty : F64 := F64.finite false 5 2

/-- The `double` nearest to the decimal 0.000000025, which is
`944473296573929 / 2^75`, a little below the decimal. -/
def twoAndAHalfUnits : F64 := F64.finite false 944473296573929 (-75)

/-- An address of 34 bytes. -/
def addr34 : String := "BBBBBBBBBBBBBBBBBBBBBBBBBBBBBBBBBB"

/-- An address of 33 bytes. -/
def addr33 : String := "AAAAAAAAAAAAAAAAAAAAAAAAAAAAAAAAA"

/-- A sample descriptor: 1.5 coins against 20 coins at a scale of `10^8`. -/
def sampleDescr (id : uint256) : XBridgeTransactionDescr where
  id := id
  fromCurrency := "BLOCK"
  from_ := addr34
  fromAmount := 150000000
  toCurrency := "LTC"
  to_ := addr34
  toAmount := 2000000000
  state := 0
  created := 3

/-- A sample descriptor whose `toAmount` is zero. -/
def zeroToDescr (id : uint256) : XBridgeTransactionDescr :=
  { sampleDescr id with toAmount := 0 }

/-- The empty map. -/
def emptyMap : TxMap := ⟨[], List.Pairwise.nil⟩

/-- A map of one entry. -/
def singletonMap (k : uint256) (tr : XBridgeTransactionDescr) : TxMap :=
  ⟨[(k, tr)], List.pairwise_singleton _ _⟩

/-- A registry whose only descriptor is historic and has a zero `toAmount`. -/
def zeroToRegistry : Registry where
  m_pendingTransactions := emptyMap
  m_transactions := emptyMap
  m_historicTransactions := singletonMap 4 (zeroToDescr 4)

/-- The sample registry with other remainders in the amounts of the
descriptors: the quotients by `10^8` are unchanged. -/
def sampleRegistryShifted : Registry where
  m_pendingTransactions :=
    ⟨[(1, { sampleDescr 1 with fromAmount := 199999999 }),
      (2, { sampleDescr 2 with toAmount := 2000000001 })], by decide⟩
  m_transactions := singletonMap 3 { sampleDescr 3 with fromAmount := 100000000 }
  m_historicTransactions := singletonMap 4 (sampleDescr 4)

/-- A registry whose only descriptor is pending: 150000000 base units (1.5
coins at a scale of `10^8`) against 2000000000 base units (20 coins). -/
def onePendingRegistry : Registry where
  m_pendingTransactions := singletonMap 1 (sampleDescr 1)
  m_transactions := emptyMap
  m_historicTransactions := emptyMap

/-- A registry with the descriptors 1 and 2 pending, 3 active and 4 historic. -/
def sampleRegistry : Registry where
  m_pendingTransactions := ⟨[(1, sampleDescr 1), (2, sampleDescr 2)], by decide⟩
  m_transactions := singletonMap 3 (sampleDescr 3)
  m_historicTransactions := singletonMap 4 (sampleDescr 4)

end XBridge

namespace XBridge

/-! ## Rounding to binary64: exactness on representable values -/

namespace F64

theorem log2Aux_eq (fuel n : Nat) (h : n ≤ fuel) : log2Aux fuel n = Nat.log 2 n := by
  induction fuel generalizing n with
  | zero =>
    have h0 : n = 0 := by omega
    subst h0
    simp [log2Aux]
  | succ f ih =>
    unfold log2Aux
    by_cases h2 : n < 2
    · simp [h2, Nat.log_of_lt h2]
    · simp only [h2, if_false]
      rw [ih (n / 2) (by omega)]
      exact (Nat.log_of_one_lt_of_le (by norm_num) (show 2 ≤ n by omega)).symm

theorem log2_eq (n : Nat) : log2 n = Nat.log 2 n := log2Aux_eq n n le_rfl

theorem pow_log2_le (n : Nat) (h : 0 < n) : 2 ^ log2 n ≤ n := by
  rw [log2_eq]
  exact Nat.pow_log_le_self 2 h.ne'

theorem lt_pow_log2 (n : Nat) : n < 2 ^ (log2 n + 1) := by
  rw [log2_eq]
  exact Nat.lt_pow_succ_log_self (by norm_num) n

theorem zpow_split (k : ℤ) : (2 : ℚ) ^ k = (2 : ℚ) ^ k.toNat / (2 : ℚ) ^ (-k).toNat := by
  rcases le_or_lt 0 k with h | h
  · have h1 : (-k).toNat = 0 := by omega
    have h2 : (k.toNat : ℤ) = k := Int.toNat_of_nonneg h
    rw [h1, pow_zero, div_one, ← zpow_natCast, h2]
  · have h1 : k.toNat = 0 := by omega
    have h2 : ((-k).toNat : ℤ) = -k := Int.toNat_of_nonneg (by omega)
    rw [h1, pow_zero, one_div, ← zpow_natCast, h2, zpow_neg, inv_inv]

theorem ilog2_spec (n d : Nat) (hn : 0 < n) (hd : 0 < d) :
    (2 : ℚ) ^ (ilog2 n d) ≤ (n : ℚ) / d ∧ (n : ℚ) / d < (2 : ℚ) ^ (ilog2 n d + 1) := by
  have hdq : (0 : ℚ) < d := by exact_mod_cast hd
  have hn1 : (2 : ℚ) ^ (log2 n : ℤ) ≤ n := by
    rw [zpow_natCast]
    exact_mod_cast pow_log2_le n hn
  have hn2 : (n : ℚ) < (2 : ℚ) ^ ((log2 n : ℤ) + 1) := by
    have := lt_pow_log2 n
    rw [show ((log2 n : ℤ) + 1) = ((log2 n + 1 : ℕ) : ℤ) by push_cast; ring, zpow_natCast]
    exact_mod_cast this
  have hd1 : (2 : ℚ) ^ (log2 d : ℤ) ≤ d := by
    rw [zpow_natCast]
    exact_mod_cast pow_log2_le d hd
  have hd2 : (d : ℚ) < (2 : ℚ) ^ ((log2 d : ℤ) + 1) := by
    have := lt_pow_log2 d
    rw [show ((log2 d : ℤ) + 1) = ((log2 d + 1 : ℕ) : ℤ) by push_cast; ring, zpow_natCast]
    exact_mod_cast this
  have h2 : (0 : ℚ) < 2 := by norm_num
  have htest : ∀ k : ℤ, (d * 2 ^ k.toNat ≤ n * 2 ^ (-k).toNat) ↔ (2 : ℚ) ^ k ≤ (n : ℚ) / d := by
    intro k
    rw [zpow_split k, div_le_div_iff₀ (by positivity) hdq]
    constructor
    · intro h
      have : ((d * 2 ^ k.toNat : ℕ) : ℚ) ≤ ((n * 2 ^ (-k).toNat : ℕ) : ℚ) := by exact_mod_cast h
      push_cast at this
      linarith
    · intro h
      have : ((d * 2 ^ k.toNat : ℕ) : ℚ) ≤ ((n * 2 ^ (-k).toNat : ℕ) : ℚ) := by
        push_cast
        linarith
      exact_mod_cast this
  unfold ilog2
  simp only
  split
  · rename_i ht
    refine ⟨(htest _).1 ht, ?_⟩
    rw [div_lt_iff₀ hdq]
    calc (n : ℚ) < (2 : ℚ) ^ ((log2 n : ℤ) + 1) := hn2
      _ = (2 : ℚ) ^ ((log2 n : ℤ) - (log2 d : ℤ) + 1) * (2 : ℚ) ^ (log2 d : ℤ) := by
          rw [← zpow_add₀ (by norm_num)]
          congr 1
          ring
      _ ≤ (2 : ℚ) ^ ((log2 n : ℤ) - (log2 d : ℤ) + 1) * d := by
          apply mul_le_mul_of_nonneg_left hd1
          positivity
  · rename_i ht
    have hlt : (n : ℚ) / d < (2 : ℚ) ^ ((log2 n : ℤ) - (log2 d : ℤ)) :=
      lt_of_not_le (fun h => ht ((htest _).2 h))
    refine ⟨?_, by simpa using hlt⟩
    rw [le_div_iff₀ hdq]
    calc (2 : ℚ) ^ ((log2 n : ℤ) - (log2 d : ℤ) - 1) * d
        ≤ (2 : ℚ) ^ ((log2 n : ℤ) - (log2 d : ℤ) - 1) * (2 : ℚ) ^ ((log2 d : ℤ) + 1) := by
          apply mul_le_mul_of_nonneg_left hd2.le
          positivity
      _ = (2 : ℚ) ^ (log2 n : ℤ) := by
          rw [← zpow_add₀ (by norm_num)]
          congr 1
          ring
      _ ≤ n := hn1

theorem roundHalfEven_of_dvd (q D : Nat) (hD : 0 < D) : roundHalfEven (q * D) D = q := by
  unfold roundHalfEven
  simp [Nat.mul_mod_left, Nat.mul_div_cancel _ hD, hD]

theorem le_roundHalfEven (N D : Nat) : N / D ≤ roundHalfEven N D := by
  unfold roundHalfEven
  simp only
  split_ifs <;> omega

theorem round_exact (neg : Bool) (n d M : Nat) (p : ℤ) (hd : 0 < d)
    (hval : (n : ℚ) / d = M * (2 : ℚ) ^ p) (hM : M < 2 ^ 53) (hp : -1074 ≤ p)
    (hmax : (n : ℚ) / d < (2 : ℚ) ^ (1024 : ℤ)) :
    ∃ m e, round neg n d = finite neg m e ∧ (m : ℚ) * (2 : ℚ) ^ e = (n : ℚ) / d := by
  by_cases hn : n = 0
  · refine ⟨0, 0, ?_, ?_⟩
    · simp [round, hn]
    · simp [hn]
  have hnpos : 0 < n := Nat.pos_of_ne_zero hn
  have hdq : (0 : ℚ) < d := by exact_mod_cast hd
  obtain ⟨hlo, hhi⟩ := ilog2_spec n d hnpos hd
  have h1 : (1 : ℚ) < 2 := by norm_num
  have hMq : (M : ℚ) < (2 : ℚ) ^ (53 : ℤ) := by
    have h : (M : ℚ) < ((2 ^ 53 : ℕ) : ℚ) := by exact_mod_cast hM
    have e53 : ((2 ^ 53 : ℕ) : ℚ) = (2 : ℚ) ^ (53 : ℤ) := by norm_num
    rwa [e53] at h
  have hE1 : ilog2 n d < 53 + p := by
    have : (2 : ℚ) ^ (ilog2 n d) < (2 : ℚ) ^ (53 + p) := by
      calc (2 : ℚ) ^ (ilog2 n d) ≤ (n : ℚ) / d := hlo
        _ = M * (2 : ℚ) ^ p := hval
        _ < (2 : ℚ) ^ (53 : ℤ) * (2 : ℚ) ^ p := by
            apply mul_lt_mul_of_pos_right hMq
            positivity
        _ = (2 : ℚ) ^ (53 + p) := by rw [← zpow_add₀ (by norm_num)]
    exact (zpow_lt_zpow_iff_right₀ h1).1 this
  have hE2 : ilog2 n d < 1024 := by
    have : (2 : ℚ) ^ (ilog2 n d) < (2 : ℚ) ^ (1024 : ℤ) := lt_of_le_of_lt hlo hmax
    exact (zpow_lt_zpow_iff_right₀ h1).1 this
  obtain ⟨e, he⟩ : ∃ e : ℤ, e = max (ilog2 n d) (-1022) - 52 := ⟨_, rfl⟩
  have hep : e ≤ p := by omega
  have he971 : e ≤ 971 := by omega
  have heE : ilog2 n d + 1 ≤ e + 53 := by omega
  have hpe : ((p - e).toNat : ℤ) = p - e := Int.toNat_of_nonneg (by omega)
  have hm_val : ((M * 2 ^ (p - e).toNat : ℕ) : ℚ) * (2 : ℚ) ^ e = (n : ℚ) / d := by
    push_cast
    rw [hval, mul_assoc, ← zpow_natCast, hpe, ← zpow_add₀ (by norm_num)]
    congr 2
    ring
  have hND : n * 2 ^ (-e).toNat = (M * 2 ^ (p - e).toNat) * (d * 2 ^ e.toNat) := by
    have hq : ((n * 2 ^ (-e).toNat : ℕ) : ℚ)
        = (((M * 2 ^ (p - e).toNat) * (d * 2 ^ e.toNat) : ℕ) : ℚ) := by
      have hs := zpow_split e
      have hpos1 : (0 : ℚ) < (2 : ℚ) ^ (-e).toNat := by positivity
      rw [hs] at hm_val
      push_cast at hm_val ⊢
      field_simp at hm_val
      linarith
    exact_mod_cast hq
  have hm_lt : M * 2 ^ (p - e).toNat < 2 ^ 53 := by
    have hlt : ((M * 2 ^ (p - e).toNat : ℕ) : ℚ) * (2 : ℚ) ^ e
        < (2 : ℚ) ^ (53 : ℤ) * (2 : ℚ) ^ e := by
      rw [hm_val]
      calc (n : ℚ) / d < (2 : ℚ) ^ (ilog2 n d + 1) := hhi
        _ ≤ (2 : ℚ) ^ (e + 53) := (zpow_le_zpow_iff_right₀ h1).2 heE
        _ = (2 : ℚ) ^ (53 : ℤ) * (2 : ℚ) ^ e := by
            rw [← zpow_add₀ (by norm_num)]
            congr 1
            ring
    have hlt2 := lt_of_mul_lt_mul_right hlt (by positivity)
    have e53 : ((2 ^ 53 : ℕ) : ℚ) = (2 : ℚ) ^ (53 : ℤ) := by norm_num
    rw [← e53] at hlt2
    exact_mod_cast hlt2
  refine ⟨M * 2 ^ (p - e).toNat, e, ?_, hm_val⟩
  unfold round
  rw [if_neg hn]
  simp only
  rw [← he, hND, roundHalfEven_of_dvd _ _ (by positivity), if_neg (ne_of_lt hm_lt),
    if_neg (ne_of_lt hm_lt), if_neg (not_lt.2 he971)]

theorem trunc_eq_floor (m : Nat) (e : ℤ) :
    m * 2 ^ e.toNat / 2 ^ (-e).toNat = ⌊(m : ℚ) * (2 : ℚ) ^ e⌋₊ := by
  rw [zpow_split e, ← mul_div_assoc]
  have h : (m : ℚ) * (2 : ℚ) ^ e.toNat / (2 : ℚ) ^ (-e).toNat
      = ((m * 2 ^ e.toNat : ℕ) : ℚ) / ((2 ^ (-e).toNat : ℕ) : ℚ) := by
    push_cast
    rfl
  rw [h, Nat.floor_div_eq_div]

theorem toUInt64_finite (m : Nat) (e : ℤ) (h : ⌊(m : ℚ) * (2 : ℚ) ^ e⌋₊ < 2 ^ 64) :
    toUInt64 (finite false m e) = some ⌊(m : ℚ) * (2 : ℚ) ^ e⌋₊ := by
  unfold toUInt64
  simp only [trunc_eq_floor]
  by_cases h0 : ⌊(m : ℚ) * (2 : ℚ) ^ e⌋₊ = 0
  · simp [h0]
  · rw [if_neg h0, if_neg (by simp), if_pos h]

theorem mul_finite (s t : Bool) (m1 m2 : Nat) (e1 e2 : ℤ) :
    mul (finite s m1 e1) (finite t m2 e2)
      = round (xor s t) (m1 * m2 * 2 ^ (e1 + e2).toNat) (2 ^ (-(e1 + e2)).toNat) := rfl

theorem add_half (m1 : Nat) (e1 : ℤ) :
    add (finite false m1 e1) half
      = round false
          ((m1 * 2 ^ (e1 - min e1 (-1)).toNat + 2 ^ (-1 - min e1 (-1)).toNat)
            * 2 ^ (min e1 (-1)).toNat)
          (2 ^ (-(min e1 (-1))).toNat) := by
  have hc : (1 : ℤ) * ((m1 * 2 ^ (e1 - min e1 (-1)).toNat : ℕ) : ℤ)
      + 1 * ((1 * 2 ^ (-1 - min e1 (-1)).toNat : ℕ) : ℤ)
      = ((m1 * 2 ^ (e1 - min e1 (-1)).toNat + 2 ^ (-1 - min e1 (-1)).toNat : ℕ) : ℤ) := by
    push_cast
    ring
  have hpos : 0 < m1 * 2 ^ (e1 - min e1 (-1)).toNat + 2 ^ (-1 - min e1 (-1)).toNat := by
    positivity
  simp only [add, half, Bool.false_eq_true, if_false, hc, Int.natAbs_ofNat]
  rw [if_neg (by exact_mod_cast hpos.ne')]
  congr 1

theorem lt_two_pow_1024 (q : ℚ) (h : q ≤ (2 : ℚ) ^ (53 : ℤ)) : q < (2 : ℚ) ^ (1024 : ℤ) :=
  lt_of_le_of_lt h ((zpow_lt_zpow_iff_right₀ (by norm_num)).2 (by norm_num))

theorem natCast_le_two_pow_53 (k : Nat) (h : k ≤ 2 ^ 53) : (k : ℚ) ≤ (2 : ℚ) ^ (53 : ℤ) := by
  have h1 : (k : ℚ) ≤ ((2 ^ 53 : ℕ) : ℚ) := by exact_mod_cast h
  have e53 : ((2 ^ 53 : ℕ) : ℚ) = (2 : ℚ) ^ (53 : ℤ) := by norm_num
  rwa [e53] at h1

theorem ofNat_exact (c : Nat) (hc : c < 2 ^ 53) :
    ∃ m e, ofNat c = finite false m e ∧ (m : ℚ) * (2 : ℚ) ^ e = c := by
  obtain ⟨m, e, h, hv⟩ := round_exact false c 1 c 0 (by norm_num) (by simp) hc (by norm_num)
    (lt_two_pow_1024 _ (by simpa using natCast_le_two_pow_53 c hc.le))
  exact ⟨m, e, h, by simpa using hv⟩

theorem ofNat_zero : ofNat 0 = finite false 0 0 := by
  simp [ofNat, round]

theorem ofNat_pos (a : Nat) (ha : 0 < a) :
    ofNat a = inf false ∨ ∃ m e, ofNat a = finite false m e ∧ m ≠ 0 := by
  obtain ⟨hlo, hhi⟩ := ilog2_spec a 1 ha (by norm_num)
  obtain ⟨e, he⟩ : ∃ e : ℤ, e = max (ilog2 a 1) (-1022) - 52 := ⟨_, rfl⟩
  have h1 : (1 : ℚ) < 2 := by norm_num
  have hE : 0 ≤ ilog2 a 1 := by
    have h1a : (1 : ℚ) ≤ (a : ℚ) := by exact_mod_cast ha
    have : (2 : ℚ) ^ (0 : ℤ) < (2 : ℚ) ^ (ilog2 a 1 + 1) := by
      calc (2 : ℚ) ^ (0 : ℤ) = 1 := by norm_num
        _ ≤ (a : ℚ) / (1 : ℕ) := by simpa using h1a
        _ < _ := hhi
    have := (zpow_lt_zpow_iff_right₀ h1).1 this
    omega
  have heE : e ≤ ilog2 a 1 := by omega
  have hDN : 1 * 2 ^ e.toNat ≤ a * 2 ^ (-e).toNat := by
    have hq : (2 : ℚ) ^ e ≤ (a : ℚ) := by
      calc (2 : ℚ) ^ e ≤ (2 : ℚ) ^ (ilog2 a 1) := (zpow_le_zpow_iff_right₀ h1).2 heE
        _ ≤ (a : ℚ) / (1 : ℕ) := hlo
        _ = a := by simp
    rw [zpow_split e, div_le_iff₀ (by positivity)] at hq
    have : ((1 * 2 ^ e.toNat : ℕ) : ℚ) ≤ ((a * 2 ^ (-e).toNat : ℕ) : ℚ) := by
      push_cast
      linarith
    exact_mod_cast this
  have hq1 : 1 ≤ roundHalfEven (a * 2 ^ (-e).toNat) (1 * 2 ^ e.toNat) :=
    le_trans (Nat.div_pos hDN (by positivity)) (le_roundHalfEven _ _)
  unfold ofNat round
  rw [if_neg ha.ne']
  simp only
  rw [← he]
  by_cases hm : roundHalfEven (a * 2 ^ (-e).toNat) (1 * 2 ^ e.toNat) = 2 ^ 53
  · rw [if_pos hm, if_pos hm]
    by_cases h971 : 971 < e + 1
    · exact Or.inl (if_pos h971)
    · exact Or.inr ⟨_, _, if_neg h971, by norm_num⟩
  · rw [if_neg hm, if_neg hm]
    by_cases h971 : 971 < e
    · exact Or.inl (if_pos h971)
    · exact Or.inr ⟨_, _, if_neg h971, by omega⟩

theorem div_ofNat_zero (a : Nat) :
    div (ofNat a) (ofNat 0) = if a = 0 then nan else inf false := by
  rw [ofNat_zero]
  by_cases ha : a = 0
  · subst ha
    rw [ofNat_zero]
    rfl
  · rw [if_neg ha]
    rcases ofNat_pos a (Nat.pos_of_ne_zero ha) with h | ⟨m, e, h, hm⟩
    · rw [h]
      rfl
    · rw [h]
      simp [div, hm]

theorem roundHalfEven_error (N D : Nat) (hD : 0 < D) :
    |((roundHalfEven N D : ℕ) : ℚ) - (N : ℚ) / D| ≤ 1 / 2 := by
  have hDq : (0 : ℚ) < D := by exact_mod_cast hD
  have hN : (N : ℚ) = (D : ℚ) * ((N / D : ℕ) : ℚ) + ((N % D : ℕ) : ℚ) := by
    exact_mod_cast (Nat.div_add_mod N D).symm
  have hr : ((N % D : ℕ) : ℚ) < D := by exact_mod_cast Nat.mod_lt N hD
  have hr0 : (0 : ℚ) ≤ ((N % D : ℕ) : ℚ) := Nat.cast_nonneg _
  have hdiv : (N : ℚ) / D = ((N / D : ℕ) : ℚ) + ((N % D : ℕ) : ℚ) / D := by
    field_simp
    linarith
  rw [hdiv, abs_le]
  unfold roundHalfEven
  simp only
  split_ifs with h1 h2 h3
  · have h1q : (2 : ℚ) * ((N % D : ℕ) : ℚ) < D := by exact_mod_cast h1
    have : ((N % D : ℕ) : ℚ) / D < 1 / 2 := by
      rw [div_lt_iff₀ hDq]
      linarith
    have : (0 : ℚ) ≤ ((N % D : ℕ) : ℚ) / D := by positivity
    constructor <;> linarith
  · have h2q : (D : ℚ) < 2 * ((N % D : ℕ) : ℚ) := by exact_mod_cast h2
    have h3' : (1 : ℚ) / 2 < ((N % D : ℕ) : ℚ) / D := by
      rw [lt_div_iff₀ hDq]
      linarith
    have h4 : ((N % D : ℕ) : ℚ) / D < 1 := by
      rw [div_lt_iff₀ hDq]
      linarith
    push_cast
    constructor <;> linarith
  · have heq : (2 : ℚ) * ((N % D : ℕ) : ℚ) = D := by
      have : 2 * (N % D) = D := by omega
      exact_mod_cast this
    have h5 : ((N % D : ℕ) : ℚ) / D = 1 / 2 := by
      rw [div_eq_iff hDq.ne']
      linarith
    rw [h5]
    constructor <;> linarith
  · have heq : (2 : ℚ) * ((N % D : ℕ) : ℚ) = D := by
      have : 2 * (N % D) = D := by omega
      exact_mod_cast this
    have h5 : ((N % D : ℕ) : ℚ) / D = 1 / 2 := by
      rw [div_eq_iff hDq.ne']
      linarith
    rw [h5]
    push_cast
    constructor <;> linarith

theorem round_error (neg : Bool) (n d : Nat) (B : ℤ) (hd : 0 < d)
    (hB1 : -1021 ≤ B) (hB2 : B ≤ 1023) (hq : (n : ℚ) / d < (2 : ℚ) ^ B) :
    ∃ m e, round neg n d = finite neg m e
      ∧ |(m : ℚ) * (2 : ℚ) ^ e - (n : ℚ) / d| ≤ (2 : ℚ) ^ (B - 54) := by
  by_cases hn : n = 0
  · refine ⟨0, 0, ?_, ?_⟩
    · simp [round, hn]
    · simp only [hn, Nat.cast_zero, zero_mul, zero_div, sub_self, abs_zero]
      positivity
  have hnpos : 0 < n := Nat.pos_of_ne_zero hn
  obtain ⟨hlo, _⟩ := ilog2_spec n d hnpos hd
  have h1 : (1 : ℚ) < 2 := by norm_num
  have hE : ilog2 n d < B := (zpow_lt_zpow_iff_right₀ h1).1 (lt_of_le_of_lt hlo hq)
  obtain ⟨e, he⟩ : ∃ e : ℤ, e = max (ilog2 n d) (-1022) - 52 := ⟨_, rfl⟩
  have heB : e ≤ B - 53 := by omega
  obtain ⟨m0, hm0⟩ : ∃ x : ℕ, x = roundHalfEven (n * 2 ^ (-e).toNat) (d * 2 ^ e.toNat) :=
    ⟨_, rfl⟩
  have hDpos : 0 < d * 2 ^ e.toNat := by positivity
  have herr := roundHalfEven_error (n * 2 ^ (-e).toNat) (d * 2 ^ e.toNat) hDpos
  rw [← hm0] at herr
  have hscaled : (((n * 2 ^ (-e).toNat : ℕ) : ℚ)) / ((d * 2 ^ e.toNat : ℕ) : ℚ)
      = (n : ℚ) / d / (2 : ℚ) ^ e := by
    rw [zpow_split e]
    push_cast
    field_simp
  rw [hscaled] at herr
  have h2e : (0 : ℚ) < (2 : ℚ) ^ e := by positivity
  have hval : |(m0 : ℚ) * (2 : ℚ) ^ e - (n : ℚ) / d| ≤ (2 : ℚ) ^ (B - 54) := by
    have h3 : (m0 : ℚ) * (2 : ℚ) ^ e - (n : ℚ) / d
        = ((m0 : ℚ) - (n : ℚ) / d / (2 : ℚ) ^ e) * (2 : ℚ) ^ e := by
      field_simp
      ring
    rw [h3, abs_mul, abs_of_pos h2e]
    calc |(m0 : ℚ) - (n : ℚ) / d / (2 : ℚ) ^ e| * (2 : ℚ) ^ e
        ≤ 1 / 2 * (2 : ℚ) ^ e := mul_le_mul_of_nonneg_right herr h2e.le
      _ = (2 : ℚ) ^ (e - 1) := by
          rw [zpow_sub₀ (by norm_num)]
          norm_num
          ring
      _ ≤ (2 : ℚ) ^ (B - 54) := (zpow_le_zpow_iff_right₀ h1).2 (by omega)
  unfold round
  rw [if_neg hn]
  simp only
  rw [← he, ← hm0]
  by_cases hm : m0 = 2 ^ 53
  · rw [if_pos hm, if_pos hm, if_neg (by omega)]
    refine ⟨_, _, rfl, ?_⟩
    have h4 : ((2 ^ 52 : ℕ) : ℚ) * (2 : ℚ) ^ (e + 1) = (m0 : ℚ) * (2 : ℚ) ^ e := by
      rw [hm, zpow_add₀ (by norm_num)]
      norm_num
      ring
    rw [h4]
    exact hval
  · rw [if_neg hm, if_neg hm, if_neg (by omega)]
    exact ⟨_, _, rfl, hval⟩

theorem add_half_value (m1 : Nat) (e1 : ℤ) :
    ((((m1 * 2 ^ (e1 - min e1 (-1)).toNat + 2 ^ (-1 - min e1 (-1)).toNat)
        * 2 ^ (min e1 (-1)).toNat : ℕ)) : ℚ) / ((2 ^ (-(min e1 (-1))).toNat : ℕ) : ℚ)
      = (m1 : ℚ) * (2 : ℚ) ^ e1 + 1 / 2 := by
  have ha : ((e1 - min e1 (-1)).toNat : ℤ) = e1 - min e1 (-1) :=
    Int.toNat_of_nonneg (by omega)
  have hb : ((-1 - min e1 (-1)).toNat : ℤ) = -1 - min e1 (-1) :=
    Int.toNat_of_nonneg (by omega)
  push_cast
  rw [mul_div_assoc, ← zpow_split (min e1 (-1)), add_mul, mul_assoc, ← zpow_natCast,
    ← zpow_natCast, ha, hb, ← zpow_add₀ (by norm_num), ← zpow_add₀ (by norm_num)]
  have e1' : e1 - min e1 (-1) + min e1 (-1) = e1 := by ring
  have e2' : -1 - min e1 (-1) + min e1 (-1) = -1 := by ring
  rw [e1', e2']
  norm_num

theorem half_lt_two_pow_1024 (k : Nat) (h : k ≤ 2 ^ 53) :
    (k : ℚ) * (2 : ℚ) ^ (-1 : ℤ) < (2 : ℚ) ^ (1024 : ℤ) := by
  apply lt_two_pow_1024
  calc (k : ℚ) * (2 : ℚ) ^ (-1 : ℤ) ≤ (k : ℚ) :=
        mul_le_of_le_one_right (Nat.cast_nonneg k) (by norm_num)
    _ ≤ (2 : ℚ) ^ (53 : ℤ) := natCast_le_two_pow_53 k h

theorem amountFromReal_aux (COIN m : Nat) (e : ℤ) (k : Nat)
    (hCOIN : COIN < 2 ^ 53)
    (hk : 2 * ((m : ℚ) * (2 : ℚ) ^ e * COIN) = k)
    (hk53 : k < 2 ^ 53) :
    toUInt64 (add (mul (finite false m e) (ofNat COIN)) half) = some ((k + 1) / 2) := by
  obtain ⟨mc, ec, hc, hcv⟩ := ofNat_exact COIN hCOIN
  have hprod : (((m * mc * 2 ^ (e + ec).toNat : ℕ) : ℚ)) / ((2 ^ (-(e + ec)).toNat : ℕ) : ℚ)
      = (k : ℚ) * (2 : ℚ) ^ (-1 : ℤ) := by
    push_cast
    rw [mul_div_assoc, ← zpow_split (e + ec), zpow_add₀ (by norm_num), ← hk, ← hcv]
    norm_num
    ring
  obtain ⟨m1, e1, h1, h1v⟩ := round_exact false _ _ k (-1) (by positivity) hprod hk53
    (by norm_num) (by
      rw [hprod]
      exact half_lt_two_pow_1024 k hk53.le)
  rw [hprod] at h1v
  rw [hc, mul_finite, show xor false false = false from rfl, h1, add_half]
  obtain ⟨n2, hn2⟩ : ∃ x : ℕ, x = (m1 * 2 ^ (e1 - min e1 (-1)).toNat
      + 2 ^ (-1 - min e1 (-1)).toNat) * 2 ^ (min e1 (-1)).toNat := ⟨_, rfl⟩
  obtain ⟨d2, hd2⟩ : ∃ x : ℕ, x = 2 ^ (-(min e1 (-1))).toNat := ⟨_, rfl⟩
  have hd2pos : 0 < d2 := by
    rw [hd2]
    positivity
  have hsum : (n2 : ℚ) / (d2 : ℚ) = ((k + 1 : ℕ) : ℚ) * (2 : ℚ) ^ (-1 : ℤ) := by
    rw [hn2, hd2, add_half_value, h1v]
    push_cast
    norm_num
    ring
  have hfloor : ⌊((k + 1 : ℕ) : ℚ) * (2 : ℚ) ^ (-1 : ℤ)⌋₊ = (k + 1) / 2 := by
    have h := Nat.floor_div_eq_div (α := ℚ) (k + 1) 2
    rw [← h]
    congr 1
    norm_num
    ring
  have hround : ∃ m2 e2, round false n2 d2 = finite false m2 e2
      ∧ (m2 : ℚ) * (2 : ℚ) ^ e2 = ((k + 1 : ℕ) : ℚ) * (2 : ℚ) ^ (-1 : ℤ) := by
    by_cases hk1 : k + 1 < 2 ^ 53
    · obtain ⟨m2, e2, h2, h2v⟩ := round_exact false n2 d2 (k + 1) (-1) hd2pos hsum hk1
        (by norm_num) (by
          rw [hsum]
          exact half_lt_two_pow_1024 (k + 1) hk1.le)
      exact ⟨m2, e2, h2, by rw [h2v, hsum]⟩
    · have hk2 : k + 1 = 2 ^ 53 := by omega
      have hsum2 : (n2 : ℚ) / (d2 : ℚ) = ((1 : ℕ) : ℚ) * (2 : ℚ) ^ (52 : ℤ) := by
        rw [hsum, hk2]
        norm_num
      obtain ⟨m2, e2, h2, h2v⟩ := round_exact false n2 d2 1 52 hd2pos hsum2 (by norm_num)
        (by norm_num) (by
          rw [hsum]
          exact half_lt_two_pow_1024 (k + 1) hk2.le)
      exact ⟨m2, e2, h2, by rw [h2v, hsum]⟩
  obtain ⟨m2, e2, h2, h2v⟩ := hround
  rw [← hn2, ← hd2, h2, toUInt64_finite, h2v, hfloor]
  rw [h2v, hfloor]
  omega

theorem amountFromReal_near (COIN m : Nat) (e : ℤ) (K : Nat)
    (hCOIN : COIN < 2 ^ 53) (hK : K < 2 ^ 49)
    (hnear : |(m : ℚ) * (2 : ℚ) ^ e * COIN - K| ≤ 1 / 4) :
    toUInt64 (add (mul (finite false m e) (ofNat COIN)) half) = some K := by
  obtain ⟨mc, ec, hc, hcv⟩ := ofNat_exact COIN hCOIN
  have hKq : (K : ℚ) + 1 ≤ (2 : ℚ) ^ (50 : ℤ) := by
    have h : ((K + 1 : ℕ) : ℚ) ≤ ((2 ^ 50 : ℕ) : ℚ) := by
      have : K + 1 ≤ 2 ^ 50 := by omega
      exact_mod_cast this
    have e50 : ((2 ^ 50 : ℕ) : ℚ) = (2 : ℚ) ^ (50 : ℤ) := by norm_num
    rw [e50] at h
    push_cast at h
    exact h
  have hK0 : (0 : ℚ) ≤ K := Nat.cast_nonneg K
  obtain ⟨hn1, hn2⟩ := abs_le.1 hnear
  have hprod : (((m * mc * 2 ^ (e + ec).toNat : ℕ) : ℚ)) / ((2 ^ (-(e + ec)).toNat : ℕ) : ℚ)
      = (m : ℚ) * (2 : ℚ) ^ e * COIN := by
    push_cast
    rw [mul_div_assoc, ← zpow_split (e + ec), zpow_add₀ (by norm_num), ← hcv]
    ring
  obtain ⟨m1, e1, h1, h1v⟩ := round_error false (m * mc * 2 ^ (e + ec).toNat)
    (2 ^ (-(e + ec)).toNat) 50 (by positivity) (by norm_num) (by norm_num) (by
      rw [hprod]
      linarith)
  rw [hprod] at h1v
  have h16 : (2 : ℚ) ^ ((50 : ℤ) - 54) = 1 / 16 := by norm_num
  rw [h16] at h1v
  obtain ⟨h1a, h1b⟩ := abs_le.1 h1v
  rw [hc, mul_finite, show xor false false = false from rfl, h1, add_half]
  have hsum := add_half_value m1 e1
  obtain ⟨n2, hn2'⟩ : ∃ x : ℕ, x = (m1 * 2 ^ (e1 - min e1 (-1)).toNat
      + 2 ^ (-1 - min e1 (-1)).toNat) * 2 ^ (min e1 (-1)).toNat := ⟨_, rfl⟩
  obtain ⟨d2, hd2⟩ : ∃ x : ℕ, x = 2 ^ (-(min e1 (-1))).toNat := ⟨_, rfl⟩
  have hd2pos : 0 < d2 := by
    rw [hd2]
    positivity
  rw [← hn2', ← hd2] at hsum ⊢
  obtain ⟨m2, e2, h2, h2v⟩ := round_error false n2 d2 50 hd2pos (by norm_num) (by norm_num)
    (by
      rw [hsum]
      linarith)
  rw [hsum, h16] at h2v
  obtain ⟨h2a, h2b⟩ := abs_le.1 h2v
  have hfloor : ⌊(m2 : ℚ) * (2 : ℚ) ^ e2⌋₊ = K := by
    rw [Nat.floor_eq_iff (by positivity)]
    constructor <;> linarith
  rw [h2, toUInt64_finite _ _ (by rw [hfloor]; omega), hfloor]

end F64

/-! ## Auxiliary lemmas on the loops -/

theorem foldl_push_back {α β : Type} (f : α → β) (l : List α) (arr : List β) :
    l.foldl (fun arr x => push_back arr (f x)) arr = arr ++ l.map f := by
  induction l generalizing arr with
  | nil => simp
  | cons x xs ih =>
    rw [List.foldl_cons, ih]
    simp [push_back]

theorem infoLoop_eq (ext : Externals) (id : String)
    (l : List (uint256 × XBridgeTransactionDescr)) (arr : List Value) :
    infoLoop ext id l arr
      = arr ++ (l.filter (fun e => ext.GetHex e.2.id == id)).map (fun e => txObject ext e.2) := by
  unfold infoLoop
  induction l generalizing arr with
  | nil => simp
  | cons x xs ih =>
    rw [List.foldl_cons, ih, List.filter_cons]
    by_cases h : ext.GetHex x.2.id = id
    · have h2 : (id != ext.GetHex x.2.id) = false := by simp [h]
      simp [h, push_back]
    · have h2 : (id != ext.GetHex x.2.id) = true := by
        simp only [bne_iff_ne, ne_eq]
        exact fun hh => h hh.symm
      simp [h, h2]

theorem txObject_eq (ext : Externals) (tr : XBridgeTransactionDescr) :
    txObject ext tr = Value.obj
      [("id", .str (ext.GetHex tr.id)), ("from", .str tr.fromCurrency),
       ("from address", .str tr.from_),
       ("fromAmount", xBridgeValueFromAmount ext.COIN tr.fromAmount),
       ("to", .str tr.toCurrency), ("to address", .str tr.to_),
       ("toAmount", xBridgeValueFromAmount ext.COIN tr.toAmount),
       ("state", .str (ext.strState tr))] := rfl

theorem txObject_spelled (ext : Externals) (tr : XBridgeTransactionDescr) :
    txObject ext tr = Value.obj
      [("id", .str (ext.GetHex tr.id)), ("from", .str tr.fromCurrency),
       ("from address", .str tr.from_),
       ("fromAmount", .real (F64.ofNat (tr.fromAmount / ext.COIN))),
       ("to", .str tr.toCurrency), ("to address", .str tr.to_),
       ("toAmount", .real (F64.ofNat (tr.toAmount / ext.COIN))),
       ("state", .str (ext.strState tr))] := rfl

theorem createAddressCheck_false (from_ to_ : String) : createAddressCheck from_ to_ = false := by
  unfold createAddressCheck
  simp only [Bool.or_eq_false_iff, Bool.and_eq_false_iff, decide_eq_false_iff_not]
  constructor <;> omega

theorem acceptAddressCheck_iff (from_ to_ : String) :
    acceptAddressCheck from_ to_ = true
      ↔ ((size from_ ≠ 33 ∧ size from_ ≠ 34) ∨ (size to_ ≠ 33 ∧ size to_ ≠ 34)) := by
  unfold acceptAddressCheck
  simp only [Bool.or_eq_true, Bool.and_eq_true, decide_eq_true_eq]

theorem dxCreateTransaction_eq {σ : Type} (ext : Externals) (app : XBridgeApp σ)
    (from_ fromCurrency : String) (fromAmount : F64) (to_ toCurrency : String) (toAmount : F64)
    (a b : Nat) (s : σ)
    (ha : xBridgeAmountFromReal ext.COIN fromAmount = some a)
    (hb : xBridgeAmountFromReal ext.COIN toAmount = some b) :
    dxCreateTransaction ext app
        [.str from_, .str fromCurrency, .real fromAmount, .str to_, .str toCurrency,
         .real toAmount] false s
      = some (.ok (if (app.sendXBridgeTransaction from_ fromCurrency a to_ toCurrency b 0 s).1
                      = Error.NO_ERROR then
                    Value.obj [("from", .str from_), ("from currency", .str fromCurrency),
                      ("from amount", .real fromAmount), ("to", .str to_),
                      ("to currency", .str toCurrency), ("to amount", .real toAmount)]
                  else
                    Value.obj [("id", .str (ext.GetHex
                      (app.sendXBridgeTransaction from_ fromCurrency a to_ toCurrency b 0 s).2.1))]),
              (app.sendXBridgeTransaction from_ fromCurrency a to_ toCurrency b 0 s).2.2) := by
  simp only [dxCreateTransaction, createParams, Value.get_str, Value.get_real,
    createAddressCheck_false, ha, hb, push_back, Pair, bind, Except.bind, pure, Except.pure]
  by_cases h : (app.sendXBridgeTransaction from_ fromCurrency a to_ toCurrency b 0 s).1
      = Error.NO_ERROR
  · rw [if_pos h, if_pos h]
    simp
  · rw [if_neg h, if_neg h]
    simp

theorem dxAcceptTransaction_eq {σ : Type} (ext : Externals) (app : XBridgeApp σ)
    (id from_ to_ : String) (s : σ) :
    dxAcceptTransaction ext app [.str id, .str from_, .str to_] false s
      = if acceptAddressCheck from_ to_ then
          (.error (.runtime_error "incorrect address"), s)
        else
          (.ok (if (app.acceptXBridgeTransaction (ext.SetHex id) from_ to_ 0 s).1
                    = Error.NO_ERROR then
                  Value.obj [("id", .str (ext.GetHex (ext.SetHex id))), ("from", .str from_),
                    ("to", .str to_)]
                else
                  Value.obj [("id", .str (ext.GetHex
                    (app.acceptXBridgeTransaction (ext.SetHex id) from_ to_ 0 s).2.1))]),
            (app.acceptXBridgeTransaction (ext.SetHex id) from_ to_ 0 s).2.2) := by
  simp only [dxAcceptTransaction, acceptParams, Value.get_str, push_back, Pair, bind,
    Except.bind, pure, Except.pure]
  by_cases hc : acceptAddressCheck from_ to_ = true
  · simp [hc]
  · by_cases h : (app.acceptXBridgeTransaction (ext.SetHex id) from_ to_ 0 s).1
        = Error.NO_ERROR
    · rw [if_neg hc, if_pos h]
      simp [hc, h]
    · rw [if_neg hc, if_neg h]
      simp [hc, h]

theorem dxCancelTransaction_eq {σ : Type} (ext : Externals) (app : XBridgeApp σ)
    (id : String) (s : σ) :
    dxCancelTransaction ext app [.str id] false s
      = (.ok (Value.obj [("id", .str (ext.GetHex (ext.SetHex id)))]),
          (app.cancelXBridgeTransaction (ext.SetHex id) TxCancelReason.crRpcRequest s).2) := by
  simp only [dxCancelTransaction, Value.get_str, push_back, Pair]
  by_cases h : (app.cancelXBridgeTransaction (ext.SetHex id) TxCancelReason.crRpcRequest s).1
      = Error.NO_ERROR <;> simp [h]

theorem get_str_error (p : Value) (e : Exception) (h : p.get_str = .error e) :
    e = .value_type_error := by
  cases p <;> simp [Value.get_str] at h <;> exact h.symm

theorem get_real_error (p : Value) (e : Exception) (h : p.get_real = .error e) :
    e = .value_type_error := by
  cases p <;> simp [Value.get_real] at h <;> exact h.symm

theorem createParams_error (p0 p1 p2 p3 p4 p5 : Value) (e : Exception)
    (h : createParams p0 p1 p2 p3 p4 p5 = .error e) : e = .value_type_error := by
  simp only [createParams, bind, Except.bind, pure, Except.pure] at h
  repeat' split at h
  all_goals first
    | (cases h; rename_i hv; first | exact get_str_error _ _ hv | exact get_real_error _ _ hv)
    | cases h

/-! ## dxCreateTransaction and dxAcceptTransaction: the address checks -/

/-- C3, the code at an input the claim says is rejected: a create request whose
from address is empty (fewer than 12 characters) is not refused. The entry
point calls `sendXBridgeTransaction` with the empty address, the application
state changes, and the six inputs are echoed as for any successful request. -/
theorem create_empty_address_not_rejected :
    dxCreateTransaction sampleExt (recorder Error.NO_ERROR 7)
        [.str "", .str "BLOCK", .real onePointFive, .str addr34, .str "LTC", .real twenty]
        false []
      = some (.ok (Value.obj [("from", .str ""), ("from currency", .str "BLOCK"),
                    ("from amount", .real onePointFive), ("to", .str addr34),
                    ("to currency", .str "LTC"), ("to amount", .real twenty)]),
              [Call.send "" "BLOCK" 150000000 addr34 "LTC" 2000000000 0]) := by
  rw [dxCreateTransaction_eq sampleExt (recorder Error.NO_ERROR 7) "" "BLOCK" onePointFive
    addr34 "LTC" twenty 150000000 2000000000 [] (by decide) (by decide)]
  rfl

/-- C4: for an accept request of three strings, `dxAcceptTransaction` throws
"incorrect address" exactly when the from address or the to address has a
size other than 33 and 34; and when it does, the outcome is that error
together with the untouched application state, whatever the application is,
so `acceptXBridgeTransaction` has not run. -/
theorem accept_validates_address_length {σ : Type} (ext : Externals) (app : XBridgeApp σ)
    (id from_ to_ : String) (s : σ) :
    ((dxAcceptTransaction ext app [.str id, .str from_, .str to_] false s).1
        = .error (.runtime_error "incorrect address")
      ↔ ((size from_ ≠ 33 ∧ size from_ ≠ 34) ∨ (size to_ ≠ 33 ∧ size to_ ≠ 34))) ∧
    (((size from_ ≠ 33 ∧ size from_ ≠ 34) ∨ (size to_ ≠ 33 ∧ size to_ ≠ 34)) →
      dxAcceptTransaction ext app [.str id, .str from_, .str to_] false s
        = (.error (.runtime_error "incorrect address"), s)) := by
  rw [dxAcceptTransaction_eq, ← acceptAddressCheck_iff]
  by_cases hc : acceptAddressCheck from_ to_ = true
  · simp [hc]
  · simp [hc]

/-- C4 at a concrete request: a from address of three bytes is refused and the
call log of the recording application stays empty. -/
theorem accept_validates_address_length_witness :
    dxAcceptTransaction sampleExt (recorder Error.NO_ERROR 7)
        [.str "01", .str "abc", .str addr34] false []
      = (.error (.runtime_error "incorrect address"), []) :=
  (accept_validates_address_length sampleExt (recorder Error.NO_ERROR 7) "01" "abc" addr34 []).2
    (Or.inl (by decide))

/-- C10: the address condition of `dxCreateTransaction` is false for every pair
of addresses; no outcome of the entry point is the "incorrect address"
error; and a request of the six expected types whose amounts convert to
`uint64_t` reaches `sendXBridgeTransaction` with the addresses, currencies and
converted amounts it was given: the resulting state is the one that call
returns. -/
theorem create_address_check_never_fires {σ : Type} (ext : Externals) (app : XBridgeApp σ)
    (from_ fromCurrency : String) (fromAmount : F64) (to_ toCurrency : String) (toAmount : F64)
    (s : σ) :
    createAddressCheck from_ to_ = false ∧
    (∀ (params : List Value) (fHelp : Bool) (r : Except Exception Value × σ),
      dxCreateTransaction ext app params fHelp s = some r →
        r.1 ≠ .error (.runtime_error "incorrect address")) ∧
    (∀ a b : Nat, xBridgeAmountFromReal ext.COIN fromAmount = some a →
      xBridgeAmountFromReal ext.COIN toAmount = some b →
      ∃ v, dxCreateTransaction ext app
          [.str from_, .str fromCurrency, .real fromAmount, .str to_, .str toCurrency,
           .real toAmount] false s
        = some (.ok v,
            (app.sendXBridgeTransaction from_ fromCurrency a to_ toCurrency b 0 s).2.2)) := by
  refine ⟨createAddressCheck_false _ _, ?_, ?_⟩
  · intro params fHelp r hr
    have hhelp : createHelp ≠ "incorrect address" := by decide
    unfold dxCreateTransaction at hr
    split at hr
    · cases hr
      simpa using hhelp
    · split at hr
      · split at hr
        · cases hr
          rename_i e he
          rw [createParams_error _ _ _ _ _ _ e he]
          simp
        · rw [createAddressCheck_false] at hr
          simp only [Bool.false_eq_true, if_false] at hr
          split at hr
          · split at hr <;> (cases hr; simp)
          · cases hr
      · cases hr
        simpa using hhelp
  · intro a b ha hb
    exact ⟨_, dxCreateTransaction_eq ext app from_ fromCurrency fromAmount to_ toCurrency
      toAmount a b s ha hb⟩

/-- C10 at a concrete request: two empty addresses. -/
theorem create_address_check_never_fires_witness :
    createAddressCheck "" "" = false ∧
    (∀ (params : List Value) (fHelp : Bool) (r : Except Exception Value × List Call),
      dxCreateTransaction sampleExt (recorder Error.NO_ERROR 7) params fHelp [] = some r →
        r.1 ≠ .error (.runtime_error "incorrect address")) ∧
    ∃ v, dxCreateTransaction sampleExt (recorder Error.NO_ERROR 7)
        [.str "", .str "BLOCK", .real onePointFive, .str "", .str "LTC", .real twenty] false []
      = some (.ok v, [Call.send "" "BLOCK" 150000000 "" "LTC" 2000000000 0]) := by
  have h := create_address_check_never_fires sampleExt (recorder Error.NO_ERROR 7) "" "BLOCK"
    onePointFive "" "LTC" twenty []
  exact ⟨h.1, h.2.1, h.2.2 150000000 2000000000 (by decide) (by decide)⟩

/-! ## The listing entry points -/

theorem dxGetTransactionList_eq (ext : Externals) (reg : Registry) :
    dxGetTransactionList ext reg [] false
      = .ok (.array (reg.m_pendingTransactions.entries.map (fun e => txObject ext e.2)
          ++ reg.m_transactions.entries.map (fun e => txObject ext e.2))) := by
  simp [dxGetTransactionList, foldl_push_back]

theorem dxGetTransactionInfo_eq (ext : Externals) (reg : Registry) (id : String) :
    dxGetTransactionInfo ext reg [.str id] false
      = .ok (.array (
          (reg.m_pendingTransactions.entries.filter (fun e => ext.GetHex e.2.id == id)).map
              (fun e => txObject ext e.2)
          ++ (reg.m_transactions.entries.filter (fun e => ext.GetHex e.2.id == id)).map
              (fun e => txObject ext e.2)
          ++ (reg.m_historicTransactions.entries.filter (fun e => ext.GetHex e.2.id == id)).map
              (fun e => txObject ext e.2))) := by
  simp [dxGetTransactionInfo, Value.get_str, infoLoop_eq]

/-- C5: `dxGetTransactionInfo` called with one string returns, without
throwing, the array of the entries of the pending map whose hexadecimal id is
the requested string, followed by those of the active map, followed by those of
the historic map, each in the order of its map. The entry of a matching
descriptor is the object of its hexadecimal id, its from currency, its from
address, its `fromAmount` divided by the unit scale (integer quotient, as a
`double`), its to currency, its to address, its `toAmount` divided likewise
and its state text. When no descriptor of the three maps has the requested
string as hexadecimal id, the array is empty. -/
theorem getTransactionInfo_by_id (ext : Externals) (reg : Registry) (id : String) :
    dxGetTransactionInfo ext reg [.str id] false
      = .ok (.array (
          (reg.m_pendingTransactions.entries.filter (fun e => ext.GetHex e.2.id == id)).map
            (fun e => Value.obj
              [("id", .str (ext.GetHex e.2.id)), ("from", .str e.2.fromCurrency),
               ("from address", .str e.2.from_),
               ("fromAmount", .real (F64.ofNat (e.2.fromAmount / ext.COIN))),
               ("to", .str e.2.toCurrency), ("to address", .str e.2.to_),
               ("toAmount", .real (F64.ofNat (e.2.toAmount / ext.COIN))),
               ("state", .str (ext.strState e.2))])
          ++ (reg.m_transactions.entries.filter (fun e => ext.GetHex e.2.id == id)).map
            (fun e => Value.obj
              [("id", .str (ext.GetHex e.2.id)), ("from", .str e.2.fromCurrency),
               ("from address", .str e.2.from_),
               ("fromAmount", .real (F64.ofNat (e.2.fromAmount / ext.COIN))),
               ("to", .str e.2.toCurrency), ("to address", .str e.2.to_),
               ("toAmount", .real (F64.ofNat (e.2.toAmount / ext.COIN))),
               ("state", .str (ext.strState e.2))])
          ++ (reg.m_historicTransactions.entries.filter (fun e => ext.GetHex e.2.id == id)).map
            (fun e => Value.obj
              [("id", .str (ext.GetHex e.2.id)), ("from", .str e.2.fromCurrency),
               ("from address", .str e.2.from_),
               ("fromAmount", .real (F64.ofNat (e.2.fromAmount / ext.COIN))),
               ("to", .str e.2.toCurrency), ("to address", .str e.2.to_),
               ("toAmount", .real (F64.ofNat (e.2.toAmount / ext.COIN))),
               ("state", .str (ext.strState e.2))]))) ∧
    ((∀ e ∈ reg.m_pendingTransactions.entries ++ reg.m_transactions.entries
          ++ reg.m_historicTransactions.entries, ext.GetHex e.2.id ≠ id) →
      dxGetTransactionInfo ext reg [.str id] false = .ok (.array [])) := by
  have hmain : dxGetTransactionInfo ext reg [.str id] false
      = .ok (.array (
          (reg.m_pendingTransactions.entries.filter (fun e => ext.GetHex e.2.id == id)).map
            (fun e => Value.obj
              [("id", .str (ext.GetHex e.2.id)), ("from", .str e.2.fromCurrency),
               ("from address", .str e.2.from_),
               ("fromAmount", .real (F64.ofNat (e.2.fromAmount / ext.COIN))),
               ("to", .str e.2.toCurrency), ("to address", .str e.2.to_),
               ("toAmount", .real (F64.ofNat (e.2.toAmount / ext.COIN))),
               ("state", .str (ext.strState e.2))])
          ++ (reg.m_transactions.entries.filter (fun e => ext.GetHex e.2.id == id)).map
            (fun e => Value.obj
              [("id", .str (ext.GetHex e.2.id)), ("from", .str e.2.fromCurrency),
               ("from address", .str e.2.from_),
               ("fromAmount", .real (F64.ofNat (e.2.fromAmount / ext.COIN))),
               ("to", .str e.2.toCurrency), ("to address", .str e.2.to_),
               ("toAmount", .real (F64.ofNat (e.2.toAmount / ext.COIN))),
               ("state", .str (ext.strState e.2))])
          ++ (reg.m_historicTransactions.entries.filter (fun e => ext.GetHex e.2.id == id)).map
            (fun e => Value.obj
              [("id", .str (ext.GetHex e.2.id)), ("from", .str e.2.fromCurrency),
               ("from address", .str e.2.from_),
               ("fromAmount", .real (F64.ofNat (e.2.fromAmount / ext.COIN))),
               ("to", .str e.2.toCurrency), ("to address", .str e.2.to_),
               ("toAmount", .real (F64.ofNat (e.2.toAmount / ext.COIN))),
               ("state", .str (ext.strState e.2))]))) := by
    simp [dxGetTransactionInfo, Value.get_str, infoLoop_eq, txObject_spelled]
  refine ⟨hmain, ?_⟩
  intro hne
  rw [hmain]
  have hnil : ∀ l : List (uint256 × XBridgeTransactionDescr),
      (∀ e ∈ l, ext.GetHex e.2.id ≠ id) →
        l.filter (fun e => ext.GetHex e.2.id == id) = [] := by
    intro l hl
    rw [List.filter_eq_nil_iff]
    intro e he
    simpa using hl e he
  rw [hnil _ (fun e he => hne e (by simp [he])), hnil _ (fun e he => hne e (by simp [he])),
    hnil _ (fun e he => hne e (by simp [he]))]
  rfl

/-- C5 on the sample registry: the request `"nonexistent"` gives the empty
array, and the request of the hexadecimal form of 3 gives the one entry of the
active descriptor 3, with its amounts of 150000000 and 2000000000 base units
reported as the `double`s 1 and 20. -/
theorem getTransactionInfo_by_id_witness :
    dxGetTransactionInfo sampleExt sampleRegistry [.str "nonexistent"] false
      = .ok (.array []) ∧
    dxGetTransactionInfo sampleExt sampleRegistry [.str (sampleGetHex 3)] false
      = .ok (.array [Value.obj
          [("id", .str (sampleGetHex 3)), ("from", .str "BLOCK"),
           ("from address", .str addr34),
           ("fromAmount", .real (F64.finite false (2 ^ 52) (-52))),
           ("to", .str "LTC"), ("to address", .str addr34),
           ("toAmount", .real (F64.finite false (5 * 2 ^ 50) (-48))),
           ("state", .str "New")]]) := by
  refine ⟨(getTransactionInfo_by_id sampleExt sampleRegistry "nonexistent").2 (by decide), ?_⟩
  rw [(getTransactionInfo_by_id sampleExt sampleRegistry (sampleGetHex 3)).1]
  have h1 : F64.ofNat (150000000 / 10 ^ 8) = F64.finite false (2 ^ 52) (-52) := by decide
  have h20 : F64.ofNat (2000000000 / 10 ^ 8) = F64.finite false (5 * 2 ^ 50) (-48) := by decide
  have hp : (sampleRegistry.m_pendingTransactions.entries.filter
      (fun e => sampleExt.GetHex e.2.id == sampleGetHex 3)) = [] := by decide
  have ha : (sampleRegistry.m_transactions.entries.filter
      (fun e => sampleExt.GetHex e.2.id == sampleGetHex 3)) = [(3, sampleDescr 3)] := by decide
  have hh : (sampleRegistry.m_historicTransactions.entries.filter
      (fun e => sampleExt.GetHex e.2.id == sampleGetHex 3)) = [] := by decide
  rw [hp, ha, hh]
  simp only [List.map_nil, List.map_cons, List.nil_append, List.append_nil, sampleDescr,
    sampleExt, h1, h20]
  rfl

/-- What `dxGetTransactionList` returns when called without parameters: one
object per entry of the pending map, in the order of that map, followed by one
object per entry of the active map, in the order of that map. The members of
an object are the hexadecimal id, the from currency, the from address, the
integer quotient of `fromAmount` by the unit scale as a `double`, the to
currency, the to address, the integer quotient of `toAmount` by the unit scale
as a `double`, and the state text. The keys of each map ascend, the length of
the array is the number of pending plus the number of active entries, and the
historic map has no part in the result. -/
theorem dxGetTransactionList_entries (ext : Externals) (reg : Registry) :
    dxGetTransactionList ext reg [] false
      = .ok (.array (
          reg.m_pendingTransactions.entries.map (fun e => Value.obj
            [("id", .str (ext.GetHex e.2.id)), ("from", .str e.2.fromCurrency),
             ("from address", .str e.2.from_),
             ("fromAmount", .real (F64.ofNat (e.2.fromAmount / ext.COIN))),
             ("to", .str e.2.toCurrency), ("to address", .str e.2.to_),
             ("toAmount", .real (F64.ofNat (e.2.toAmount / ext.COIN))),
             ("state", .str (ext.strState e.2))])
          ++ reg.m_transactions.entries.map (fun e => Value.obj
            [("id", .str (ext.GetHex e.2.id)), ("from", .str e.2.fromCurrency),
             ("from address", .str e.2.from_),
             ("fromAmount", .real (F64.ofNat (e.2.fromAmount / ext.COIN))),
             ("to", .str e.2.toCurrency), ("to address", .str e.2.to_),
             ("toAmount", .real (F64.ofNat (e.2.toAmount / ext.COIN))),
             ("state", .str (ext.strState e.2))]))) ∧
    (∃ items, dxGetTransactionList ext reg [] false = .ok (.array items) ∧
      items.length = reg.m_pendingTransactions.entries.length
        + reg.m_transactions.entries.length) ∧
    (reg.m_pendingTransactions.entries.map Prod.fst).Pairwise (fun a b => a < b) ∧
    (reg.m_transactions.entries.map Prod.fst).Pairwise (fun a b => a < b) ∧
    (∀ historic : TxMap,
      dxGetTransactionList ext { reg with m_historicTransactions := historic } [] false
        = dxGetTransactionList ext reg [] false) := by
  have hmain : dxGetTransactionList ext reg [] false
      = .ok (.array (reg.m_pendingTransactions.entries.map (fun e => txObject ext e.2)
          ++ reg.m_transactions.entries.map (fun e => txObject ext e.2))) := by
    simp [dxGetTransactionList, foldl_push_back]
  refine ⟨?_, ?_, ?_, ?_, ?_⟩
  · rw [hmain]
    simp only [txObject_spelled]
  · exact ⟨_, hmain, by simp⟩
  · rw [List.pairwise_map]
    exact reg.m_pendingTransactions.sorted
  · rw [List.pairwise_map]
    exact reg.m_transactions.sorted
  · intro historic
    rfl

/-- C6, the code at a registry whose one pending descriptor holds 150000000
base units against 2000000000, with a unit scale of `10^8`: the list has the
one entry of that descriptor, with the eight members in order, but its
`fromAmount` member is the `double` 1, the integer quotient
`150000000 / 100000000`, while the descriptor's amount is 1.5 coins: the entry
does not carry the descriptor's `fromAmount`. -/
theorem getTransactionList_amount_truncated :
    (sampleDescr 1).fromAmount = 150000000 ∧
    dxGetTransactionList sampleExt onePendingRegistry [] false
      = .ok (.array [Value.obj
          [("id", .str (sampleGetHex 1)), ("from", .str "BLOCK"),
           ("from address", .str addr34),
           ("fromAmount", .real (F64.finite false (2 ^ 52) (-52))),
           ("to", .str "LTC"), ("to address", .str addr34),
           ("toAmount", .real (F64.finite false (5 * 2 ^ 50) (-48))),
           ("state", .str "New")]]) ∧
    (F64.finite false (2 ^ 52) (-52)).toRat = 1 ∧
    (150000000 : ℚ) / ((10 ^ 8 : ℕ) : ℚ) = 3 / 2 := by
  refine ⟨rfl, ?_, by norm_num [F64.toRat], by norm_num⟩
  have h1 : F64.ofNat (150000000 / 10 ^ 8) = F64.finite false (2 ^ 52) (-52) := by decide
  have h20 : F64.ofNat (2000000000 / 10 ^ 8) = F64.finite false (5 * 2 ^ 50) (-48) := by decide
  rw [dxGetTransactionList_eq]
  simp only [onePendingRegistry, singletonMap, emptyMap, List.map_nil, List.map_cons,
    List.append_nil, txObject_spelled, sampleDescr, sampleExt, h1, h20]
  rfl

/-! ## Results of create, accept and cancel -/

/-- C8, the claim refuted for cancel: on the same request, an application whose
`cancelXBridgeTransaction` reports `NO_ERROR` and one whose
`cancelXBridgeTransaction` reports an error make `dxCancelTransaction` return
the same value. -/
theorem cancel_success_equals_failure :
    ((recorder Error.NO_ERROR 7).cancelXBridgeTransaction (sampleExt.SetHex "01")
        TxCancelReason.crRpcRequest []).1 = Error.NO_ERROR ∧
    ((recorder (Error.OTHER 1) 7).cancelXBridgeTransaction (sampleExt.SetHex "01")
        TxCancelReason.crRpcRequest []).1 ≠ Error.NO_ERROR ∧
    (dxCancelTransaction sampleExt (recorder Error.NO_ERROR 7) [.str "01"] false []).1
      = (dxCancelTransaction sampleExt (recorder (Error.OTHER 1) 7) [.str "01"] false []).1 := by
  refine ⟨rfl, by decide, ?_⟩
  rw [dxCancelTransaction_eq, dxCancelTransaction_eq]

/-- C8 as amended. Create: for every pair of addresses, every pair of
currencies and every pair of amounts that convert to `uint64_t`, the value
returned when `sendXBridgeTransaction` reports `NO_ERROR` (six members) differs
from the value returned when it reports an error (the single member `id`).
Accept: for every id and every pair of addresses that pass the size check, the
value returned when `acceptXBridgeTransaction` reports `NO_ERROR` (three
members) differs from the value returned when it reports an error (the single
member `id`). Cancel: for every id the two values are equal, the object with
the single member `id` holding the hexadecimal form of the requested id. -/
theorem create_accept_disambiguate_cancel_does_not {σ : Type} (ext : Externals)
    (appOk appErr : XBridgeApp σ)
    (createFrom fromCurrency createTo toCurrency : String) (fromAmount toAmount : F64)
    (a b : Nat)
    (acceptId acceptFrom acceptTo cancelId : String) (s : σ)
    (ha : xBridgeAmountFromReal ext.COIN fromAmount = some a)
    (hb : xBridgeAmountFromReal ext.COIN toAmount = some b)
    (hsendOk : (appOk.sendXBridgeTransaction createFrom fromCurrency a createTo toCurrency
      b 0 s).1 = Error.NO_ERROR)
    (hsendErr : (appErr.sendXBridgeTransaction createFrom fromCurrency a createTo toCurrency
      b 0 s).1 ≠ Error.NO_ERROR)
    (hlen : acceptAddressCheck acceptFrom acceptTo = false)
    (hacceptOk : (appOk.acceptXBridgeTransaction (ext.SetHex acceptId) acceptFrom acceptTo
      0 s).1 = Error.NO_ERROR)
    (hacceptErr : (appErr.acceptXBridgeTransaction (ext.SetHex acceptId) acceptFrom acceptTo
      0 s).1 ≠ Error.NO_ERROR)
    (_hcancelOk : (appOk.cancelXBridgeTransaction (ext.SetHex cancelId)
      TxCancelReason.crRpcRequest s).1 = Error.NO_ERROR)
    (_hcancelErr : (appErr.cancelXBridgeTransaction (ext.SetHex cancelId)
      TxCancelReason.crRpcRequest s).1 ≠ Error.NO_ERROR) :
    (dxCreateTransaction ext appOk
        [.str createFrom, .str fromCurrency, .real fromAmount, .str createTo,
         .str toCurrency, .real toAmount] false s).map Prod.fst
      ≠ (dxCreateTransaction ext appErr
        [.str createFrom, .str fromCurrency, .real fromAmount, .str createTo,
         .str toCurrency, .real toAmount] false s).map Prod.fst ∧
    (dxAcceptTransaction ext appOk [.str acceptId, .str acceptFrom, .str acceptTo] false s).1
      ≠ (dxAcceptTransaction ext appErr
          [.str acceptId, .str acceptFrom, .str acceptTo] false s).1 ∧
    (dxCancelTransaction ext appOk [.str cancelId] false s).1
      = (dxCancelTransaction ext appErr [.str cancelId] false s).1 ∧
    (dxCancelTransaction ext appOk [.str cancelId] false s).1
      = .ok (Value.obj [("id", .str (ext.GetHex (ext.SetHex cancelId)))]) := by
  refine ⟨?_, ?_, ?_, ?_⟩
  · rw [dxCreateTransaction_eq ext appOk _ _ _ _ _ _ a b s ha hb,
      dxCreateTransaction_eq ext appErr _ _ _ _ _ _ a b s ha hb, if_pos hsendOk,
      if_neg hsendErr]
    simp
  · rw [dxAcceptTransaction_eq, dxAcceptTransaction_eq, hlen, if_pos hacceptOk,
      if_neg hacceptErr]
    simp
  · rw [dxCancelTransaction_eq, dxCancelTransaction_eq]
  · rw [dxCancelTransaction_eq]

/-- C8 as amended, at concrete requests answered by two recording
applications: a create request with two empty addresses, an accept request with
addresses of 34 and 33 bytes, a cancel request. -/
theorem create_accept_disambiguate_cancel_does_not_witness :
    (dxCreateTransaction sampleExt (recorder Error.NO_ERROR 7)
        [.str "", .str "BLOCK", .real onePointFive, .str "", .str "LTC",
         .real twenty] false []).map Prod.fst
      ≠ (dxCreateTransaction sampleExt (recorder (Error.OTHER 1) 7)
        [.str "", .str "BLOCK", .real onePointFive, .str "", .str "LTC",
         .real twenty] false []).map Prod.fst ∧
    (dxAcceptTransaction sampleExt (recorder Error.NO_ERROR 7)
        [.str "01", .str addr34, .str addr33] false []).1
      ≠ (dxAcceptTransaction sampleExt (recorder (Error.OTHER 1) 7)
        [.str "01", .str addr34, .str addr33] false []).1 ∧
    (dxCancelTransaction sampleExt (recorder Error.NO_ERROR 7) [.str "02"] false []).1
      = (dxCancelTransaction sampleExt (recorder (Error.OTHER 1) 7) [.str "02"] false []).1 ∧
    (dxCancelTransaction sampleExt (recorder Error.NO_ERROR 7) [.str "02"] false []).1
      = .ok (Value.obj [("id", .str (sampleExt.GetHex (sampleExt.SetHex "02")))]) :=
  create_accept_disambiguate_cancel_does_not sampleExt (recorder Error.NO_ERROR 7)
    (recorder (Error.OTHER 1) 7) "" "BLOCK" "" "LTC" onePointFive twenty
    150000000 2000000000 "01" addr34 addr33 "02" [] (by decide) (by decide) rfl (by decide)
    (by decide) rfl (by decide) rfl (by decide)

/-- C9: for a create request of the six expected types whose amounts convert
to `uint64_t`, `dxCreateTransaction` calls `sendXBridgeTransaction` once, with a
zero identifier; when the call reports `NO_ERROR` the result is the object of
the six members `from`, `from currency`, `from amount`, `to`, `to currency`,
`to amount` holding the six parameters as they were given (the amounts as the
`double`s of the request), and otherwise the object of the single member `id`
holding the hexadecimal form of the identifier the call handed back. -/
theorem create_result_shape {σ : Type} (ext : Externals) (app : XBridgeApp σ)
    (from_ fromCurrency : String) (fromAmount : F64) (to_ toCurrency : String) (toAmount : F64)
    (a b : Nat) (s : σ)
    (ha : xBridgeAmountFromReal ext.COIN fromAmount = some a)
    (hb : xBridgeAmountFromReal ext.COIN toAmount = some b) :
    ((app.sendXBridgeTransaction from_ fromCurrency a to_ toCurrency b 0 s).1 = Error.NO_ERROR →
      dxCreateTransaction ext app
          [.str from_, .str fromCurrency, .real fromAmount, .str to_, .str toCurrency,
           .real toAmount] false s
        = some (.ok (Value.obj [("from", .str from_), ("from currency", .str fromCurrency),
                      ("from amount", .real fromAmount), ("to", .str to_),
                      ("to currency", .str toCurrency), ("to amount", .real toAmount)]),
            (app.sendXBridgeTransaction from_ fromCurrency a to_ toCurrency b 0 s).2.2)) ∧
    ((app.sendXBridgeTransaction from_ fromCurrency a to_ toCurrency b 0 s).1 ≠ Error.NO_ERROR →
      dxCreateTransaction ext app
          [.str from_, .str fromCurrency, .real fromAmount, .str to_, .str toCurrency,
           .real toAmount] false s
        = some (.ok (Value.obj [("id", .str (ext.GetHex
              (app.sendXBridgeTransaction from_ fromCurrency a to_ toCurrency b 0 s).2.1))]),
            (app.sendXBridgeTransaction from_ fromCurrency a to_ toCurrency b 0 s).2.2)) := by
  constructor
  · intro h
    rw [dxCreateTransaction_eq ext app _ _ _ _ _ _ a b s ha hb, if_pos h]
  · intro h
    rw [dxCreateTransaction_eq ext app _ _ _ _ _ _ a b s ha hb, if_neg h]

/-- C9 at a concrete request, on the failure path: the application reports an
error and hands back the identifier 7, and the result is the object whose
only member `id` holds the hexadecimal form of 7. -/
theorem create_result_shape_witness :
    dxCreateTransaction sampleExt (recorder (Error.OTHER 1) 7)
        [.str addr34, .str "BLOCK", .real onePointFive, .str addr33, .str "LTC",
         .real twenty] false []
      = some (.ok (Value.obj [("id", .str (sampleExt.GetHex 7))]),
          [Call.send addr34 "BLOCK" 150000000 addr33 "LTC" 2000000000 0]) :=
  (create_result_shape sampleExt (recorder (Error.OTHER 1) 7) addr34 "BLOCK" onePointFive
    addr33 "LTC" twenty 150000000 2000000000 [] (by decide) (by decide)).2 (by decide)

/-! ## The history listing -/

/-- C7, the claim refuted: on a registry whose only historic descriptor has
`toAmount = 0` (and `fromAmount = 150000000`), `dxGetTransactionsHistoryList`
throws nothing and returns one entry for that descriptor, whose `price` is the
quotient of the division by zero, the positive infinity. -/
theorem historyList_divides_by_zero :
    (zeroToDescr 4).toAmount = 0 ∧
    dxGetTransactionsHistoryList sampleExt zeroToRegistry [] false
      = .ok (.array [Value.obj
          [("time", .str "|||"), ("traid_id", .str (sampleGetHex 4)),
           ("price", .real (F64.inf false)), ("size", .int 0), ("side", .str "buy")]]) := by
  refine ⟨rfl, ?_⟩
  have hdiv : F64.div (F64.ofNat 150000000) (F64.ofNat 0) = F64.inf false := by decide
  simp only [dxGetTransactionsHistoryList, zeroToRegistry, singletonMap, zeroToDescr,
    sampleDescr, sampleExt, push_back, Pair, hdiv]
  rfl

/-- C7 as amended: `dxGetTransactionsHistoryList` called without parameters
returns one entry per historic descriptor, in map order, and the `price` of
every entry is the `double` quotient of `fromAmount` by `toAmount`, computed
without any test of the divisor. With `toAmount = 0` that quotient is the
positive infinity, or NaN when `fromAmount` is zero too; nothing is thrown. -/
theorem historyList_price_unguarded (ext : Externals) (reg : Registry) :
    dxGetTransactionsHistoryList ext reg [] false
      = .ok (.array (reg.m_historicTransactions.entries.map (fun e => Value.obj
          [("time", .str (ext.to_simple_string e.2.created)),
           ("traid_id", .str (ext.GetHex e.2.id)),
           ("price", .real (F64.div (F64.ofNat e.2.fromAmount) (F64.ofNat e.2.toAmount))),
           ("size", .int e.2.toAmount), ("side", .str "buy")]))) ∧
    (∀ fromAmount : Nat, F64.div (F64.ofNat fromAmount) (F64.ofNat 0)
      = if fromAmount = 0 then F64.nan else F64.inf false) := by
  refine ⟨?_, F64.div_ofNat_zero⟩
  unfold dxGetTransactionsHistoryList
  simp only [Bool.false_or, List.length_nil, gt_iff_lt, lt_self_iff_false, decide_False,
    Bool.false_eq_true, if_false]
  split
  · rename_i hempty
    rw [List.isEmpty_iff] at hempty
    rw [hempty]
    rfl
  · rw [foldl_push_back]
    simp [push_back, Pair]

/-! ## Amount conversions -/

set_option maxRecDepth 100000 in
theorem xBridgeAmountFromReal_twoAndAHalfUnits :
    xBridgeAmountFromReal (10 ^ 8) twoAndAHalfUnits = some 3 := by
  decide

/-- C1, the claim refuted: for the `double` nearest to the decimal 0.000000025
and a unit scale of `10^8`, the scaled value is a little below 2.5, so
`floor(v * COIN + 1/2)` is 2, but the `double` product rounds to 2.5 and
`xBridgeAmountFromReal` returns 3. -/
theorem amountFromReal_differs_from_floor :
    twoAndAHalfUnits.valid = true ∧
    xBridgeAmountFromReal (10 ^ 8) twoAndAHalfUnits = some 3 ∧
    ⌊twoAndAHalfUnits.toRat * ((10 ^ 8 : ℕ) : ℚ) + 1 / 2⌋₊ = 2 := by
  refine ⟨by decide, xBridgeAmountFromReal_twoAndAHalfUnits, ?_⟩
  rw [Nat.floor_eq_iff (by norm_num [twoAndAHalfUnits, F64.toRat])]
  norm_num [twoAndAHalfUnits, F64.toRat]

/-- C1 as amended: for a unit scale below `2^53` and a non-negative finite
`double` `v`, `xBridgeAmountFromReal v` is defined and equals
`floor(v * COIN + 1/2)` whenever the scaled value `v * COIN` is a whole number
of half base units below `2^52` (then the product and the sum are exact), or
lies within a quarter of a base unit of a whole number of base units below
`2^49` (then the two roundings cannot carry the sum across a whole number). -/
theorem amountFromReal_eq_floor (COIN m : Nat) (e : ℤ) (hCOIN : COIN < 2 ^ 53)
    (h : (∃ k : ℕ, k < 2 ^ 53 ∧ 2 * ((F64.finite false m e).toRat * (COIN : ℚ)) = (k : ℚ)) ∨
      (∃ K : ℕ, K < 2 ^ 49 ∧ |(F64.finite false m e).toRat * (COIN : ℚ) - (K : ℚ)| ≤ 1 / 4)) :
    xBridgeAmountFromReal COIN (F64.finite false m e)
      = some ⌊(F64.finite false m e).toRat * (COIN : ℚ) + 1 / 2⌋₊ := by
  have hv : (F64.finite false m e).toRat = (m : ℚ) * (2 : ℚ) ^ e := by
    simp [F64.toRat]
  rw [hv] at h ⊢
  unfold xBridgeAmountFromReal
  rcases h with ⟨k, hk53, hk⟩ | ⟨K, hK, hnear⟩
  · have hfloor : ⌊(m : ℚ) * (2 : ℚ) ^ e * (COIN : ℚ) + 1 / 2⌋₊ = (k + 1) / 2 := by
      have h2 := Nat.floor_div_eq_div (α := ℚ) (k + 1) 2
      rw [← h2]
      congr 1
      push_cast
      linarith
    rw [hfloor]
    exact F64.amountFromReal_aux COIN m e k hCOIN hk hk53
  · have hfloor : ⌊(m : ℚ) * (2 : ℚ) ^ e * (COIN : ℚ) + 1 / 2⌋₊ = K := by
      obtain ⟨h1, h2⟩ := abs_le.1 hnear
      have hK0 : (0 : ℚ) ≤ K := Nat.cast_nonneg K
      rw [Nat.floor_eq_iff (by linarith)]
      constructor <;> linarith
    rw [hfloor]
    exact F64.amountFromReal_near COIN m e K hCOIN hK hnear

/-- C1 as amended, with a unit scale of `10^8`: 1.5 converts to exactly
150000000 base units (a whole number of half units), and the `double` nearest
to 0.1 converts to exactly 10000000 base units (within a quarter of a unit). -/
theorem amountFromReal_eq_floor_witness :
    (xBridgeAmountFromReal (10 ^ 8) onePointFive
        = some ⌊onePointFive.toRat * ((10 ^ 8 : ℕ) : ℚ) + 1 / 2⌋₊
      ∧ ⌊onePointFive.toRat * ((10 ^ 8 : ℕ) : ℚ) + 1 / 2⌋₊ = 150000000) ∧
    (xBridgeAmountFromReal (10 ^ 8) oneTenth
        = some ⌊oneTenth.toRat * ((10 ^ 8 : ℕ) : ℚ) + 1 / 2⌋₊
      ∧ ⌊oneTenth.toRat * ((10 ^ 8 : ℕ) : ℚ) + 1 / 2⌋₊ = 10000000) := by
  refine ⟨⟨amountFromReal_eq_floor (10 ^ 8) 3 (-1) (by decide)
      (Or.inl ⟨300000000, by decide, by norm_num [F64.toRat]⟩), ?_⟩,
    ⟨amountFromReal_eq_floor (10 ^ 8) 3602879701896397 (-55) (by decide)
      (Or.inr ⟨10000000, by decide, by
        rw [abs_le]
        norm_num [F64.toRat]⟩), ?_⟩⟩
  · rw [Nat.floor_eq_iff (by norm_num [onePointFive, F64.toRat])]
    norm_num [onePointFive, F64.toRat]
  · rw [Nat.floor_eq_iff (by norm_num [oneTenth, F64.toRat])]
    norm_num [oneTenth, F64.toRat]

/-- C2, the code at 1.5 with a unit scale of `10^8`: `xBridgeAmountFromReal`
gives 150000000 base units, `xBridgeValueFromAmount` turns them into the
`double` 1 (the integer quotient `150000000 / 100000000`), and the distance to
the original 1.5 is one half, not one hundred-millionth. -/
theorem roundtrip_one_point_five :
    xBridgeAmountFromReal (10 ^ 8) onePointFive = some 150000000 ∧
    xBridgeValueFromAmount (10 ^ 8) 150000000 = .real (F64.finite false (2 ^ 52) (-52)) ∧
    |(F64.finite false (2 ^ 52) (-52)).toRat - onePointFive.toRat| = 1 / 2 ∧
    (1 : ℚ) / ((10 ^ 8 : ℕ) : ℚ) < 1 / 2 := by
  refine ⟨by decide, ?_, ?_, by norm_num⟩
  · have h : F64.ofNat (150000000 / 10 ^ 8) = F64.finite false (2 ^ 52) (-52) := by decide
    simp only [xBridgeValueFromAmount, h]
  · norm_num [F64.toRat, onePointFive, abs_of_neg]

/-! ## xBridgeValueFromAmount: whole coins -/

theorem txObject_sameReport (ext : Externals) (tr1 tr2 : XBridgeTransactionDescr)
    (h : sameReport ext tr1 tr2) : txObject ext tr1 = txObject ext tr2 := by
  obtain ⟨h1, h2, h3, h4, h5, h6, h7, h8⟩ := h
  simp only [txObject_eq, xBridgeValueFromAmount, h1, h2, h3, h4, h5, h6, h7, h8]

theorem map_txObject_sameReport (ext : Externals)
    (l1 l2 : List (uint256 × XBridgeTransactionDescr))
    (h : List.Forall₂ (fun e1 e2 => sameReport ext e1.2 e2.2) l1 l2) :
    l1.map (fun e => txObject ext e.2) = l2.map (fun e => txObject ext e.2) := by
  induction h with
  | nil => rfl
  | cons hab _ ih => simp only [List.map_cons, txObject_sameReport ext _ _ hab, ih]

theorem filter_map_txObject_sameReport (ext : Externals) (id : String)
    (l1 l2 : List (uint256 × XBridgeTransactionDescr))
    (h : List.Forall₂ (fun e1 e2 => sameReport ext e1.2 e2.2) l1 l2) :
    (l1.filter (fun e => ext.GetHex e.2.id == id)).map (fun e => txObject ext e.2)
      = (l2.filter (fun e => ext.GetHex e.2.id == id)).map (fun e => txObject ext e.2) := by
  induction h with
  | nil => rfl
  | @cons a b _ _ hab _ ih =>
    have hid : a.2.id = b.2.id := hab.1
    simp only [List.filter_cons, hid]
    split
    · simp only [List.map_cons, txObject_sameReport ext _ _ hab, ih]
    · exact ih

theorem quotient_lt_two_pow_53 (COIN a : Nat) (hCOIN : 2 ^ 11 ≤ COIN) (ha : a < 2 ^ 64) :
    a / COIN < 2 ^ 53 := by
  have h1 : a / COIN ≤ a / 2 ^ 11 := Nat.div_le_div_left hCOIN (by norm_num)
  have h2 : a / 2 ^ 11 < 2 ^ 53 := by omega
  omega

/-- C11: `xBridgeValueFromAmount` reports whole coins. For a unit scale of at
least `2^11` (so that every quotient of a 64-bit amount is below `2^53`) and
every amount `a` below `2^64`, the reported `double` is finite, not negative,
and its value is exactly the integer quotient `a / COIN`, a whole number; every
amount below `COIN` is reported as zero; two amounts with the same quotient are
reported identically; and two registries whose descriptors agree up to the
remainders of their amounts give the same `dxGetTransactionList` result and,
for every id, the same `dxGetTransactionInfo` result. -/
theorem valueFromAmount_whole_coins (ext : Externals) (a : Nat) :
    (2 ^ 11 ≤ ext.COIN → a < 2 ^ 64 →
      ∃ m e, xBridgeValueFromAmount ext.COIN a = .real (F64.finite false m e)
        ∧ (F64.finite false m e).toRat = ((a / ext.COIN : ℕ) : ℚ)) ∧
    (a < ext.COIN → xBridgeValueFromAmount ext.COIN a = .real (F64.finite false 0 0)) ∧
    (∀ b : Nat, a / ext.COIN = b / ext.COIN →
      xBridgeValueFromAmount ext.COIN a = xBridgeValueFromAmount ext.COIN b) ∧
    (∀ reg1 reg2 : Registry,
      List.Forall₂ (fun e1 e2 => sameReport ext e1.2 e2.2)
        reg1.m_pendingTransactions.entries reg2.m_pendingTransactions.entries →
      List.Forall₂ (fun e1 e2 => sameReport ext e1.2 e2.2)
        reg1.m_transactions.entries reg2.m_transactions.entries →
      List.Forall₂ (fun e1 e2 => sameReport ext e1.2 e2.2)
        reg1.m_historicTransactions.entries reg2.m_historicTransactions.entries →
      dxGetTransactionList ext reg1 [] false = dxGetTransactionList ext reg2 [] false ∧
      ∀ id : String, dxGetTransactionInfo ext reg1 [.str id] false
        = dxGetTransactionInfo ext reg2 [.str id] false) := by
  refine ⟨?_, ?_, ?_, ?_⟩
  · intro hCOIN ha
    obtain ⟨m, e, h, hv⟩ := F64.ofNat_exact (a / ext.COIN)
      (quotient_lt_two_pow_53 ext.COIN a hCOIN ha)
    refine ⟨m, e, ?_, ?_⟩
    · simp only [xBridgeValueFromAmount, h]
    · simpa [F64.toRat] using hv
  · intro ha
    simp only [xBridgeValueFromAmount, Nat.div_eq_of_lt ha, F64.ofNat_zero]
  · intro b hb
    simp only [xBridgeValueFromAmount, hb]
  · intro reg1 reg2 hp ha hh
    constructor
    · rw [dxGetTransactionList_eq, dxGetTransactionList_eq,
        map_txObject_sameReport ext _ _ hp, map_txObject_sameReport ext _ _ ha]
    · intro id
      rw [dxGetTransactionInfo_eq, dxGetTransactionInfo_eq,
        filter_map_txObject_sameReport ext id _ _ hp,
        filter_map_txObject_sameReport ext id _ _ ha,
        filter_map_txObject_sameReport ext id _ _ hh]

/-- C11 with a unit scale of `10^8`: 150000000 base units are reported as a
`double` of value 1; 99999999 base units are reported as zero; 150000000 and
199999999 base units are reported identically; and the sample registry and
its copy with other remainders give the same list. -/
theorem valueFromAmount_whole_coins_witness :
    (∃ m e, xBridgeValueFromAmount sampleExt.COIN 150000000 = .real (F64.finite false m e)
      ∧ (F64.finite false m e).toRat = ((150000000 / sampleExt.COIN : ℕ) : ℚ)) ∧
    xBridgeValueFromAmount sampleExt.COIN 99999999 = .real (F64.finite false 0 0) ∧
    xBridgeValueFromAmount sampleExt.COIN 150000000
      = xBridgeValueFromAmount sampleExt.COIN 199999999 ∧
    dxGetTransactionList sampleExt sampleRegistry [] false
      = dxGetTransactionList sampleExt sampleRegistryShifted [] false := by
  have hsame : ∀ tr1 tr2 : XBridgeTransactionDescr,
      tr1.id = tr2.id → tr1.fromCurrency = tr2.fromCurrency → tr1.from_ = tr2.from_ →
      tr1.toCurrency = tr2.toCurrency → tr1.to_ = tr2.to_ → tr1.state = tr2.state →
      tr1.fromAmount / 10 ^ 8 = tr2.fromAmount / 10 ^ 8 →
      tr1.toAmount / 10 ^ 8 = tr2.toAmount / 10 ^ 8 → sameReport sampleExt tr1 tr2 := by
    intro tr1 tr2 h1 h2 h3 h4 h5 h6 h7 h8
    refine ⟨h1, h2, h3, h4, h5, ?_, h7, h8⟩
    simp only [sampleExt, h6]
  refine ⟨(valueFromAmount_whole_coins sampleExt 150000000).1 (by decide) (by decide),
    (valueFromAmount_whole_coins sampleExt 99999999).2.1 (by decide),
    (valueFromAmount_whole_coins sampleExt 150000000).2.2.1 199999999 (by decide),
    ((valueFromAmount_whole_coins sampleExt 0).2.2.2 sampleRegistry sampleRegistryShifted
      ?_ ?_ ?_).1⟩
  · exact List.Forall₂.cons (hsame _ _ rfl rfl rfl rfl rfl rfl (by decide) (by decide))
      (List.Forall₂.cons (hsame _ _ rfl rfl rfl rfl rfl rfl (by decide) (by decide))
        List.Forall₂.nil)
  · exact List.Forall₂.cons (hsame _ _ rfl rfl rfl rfl rfl rfl (by decide) (by decide))
      List.Forall₂.nil
  · exact List.Forall₂.cons (hsame _ _ rfl rfl rfl rfl rfl rfl (by decide) (by decide))
      List.Forall₂.nil

end XBridge
